import Mathlib

/-!
Verification development for a CSV-to-QFX (OFX) converter.

The converter reads brokerage transaction rows, classifies each row by its
Activity field, generates an OFX transaction fragment plus an optional
security-list entry per row, deduplicates security entries by identifier,
and serializes a single OFX document.

This file gives a shallow embedding of the core converter logic:
  - field normalization (currency, quantity, dates) modelled over
    character lists and exact rationals (the source uses Python floats;
    all inputs exercised here are exactly representable),
  - the per-activity transaction generators,
  - the dispatch rule (including the funding-activity override),
  - the main accumulation loop (transaction order, security dedup) and
    the document serialization.

External collaborators (the fund-vs-equity lookup database and the regex
engine used for the missing-CUSIP fallback table) are modelled as opaque
boolean-valued parameters carried in an environment record; no claim below
depends on their values.  File input and output are out of scope: the
model of main takes the parsed rows and returns the document lines (the
source writes them joined by newlines only after every row succeeded).
-/

/-! ### Character and list helpers -/

/-- The ten decimal digit characters. -/
def digitChars : List Char := ['0', '1', '2', '3', '4', '5', '6', '7', '8', '9']

/-- Character for a single decimal digit value. -/
def dchar (d : Nat) : Char := Char.ofNat (48 + d)

/-- Python str.strip(): remove leading and trailing whitespace. -/
def stripChars (l : List Char) : List Char :=
  ((l.dropWhile Char.isWhitespace).reverse.dropWhile Char.isWhitespace).reverse

/-- Python str.strip() on a String. -/
def stripStr (s : String) : String := String.mk (stripChars s.data)

/-- Python str.lower() on a String (ASCII content in this application). -/
def lowerStr (s : String) : String := String.mk (s.data.map Char.toLower)

/-- Python str.rstrip(): remove trailing whitespace. -/
def rstripStr (s : String) : String :=
  String.mk ((s.data.reverse.dropWhile Char.isWhitespace).reverse)

/-- Render an optional string the way a Python f-string renders the value:
None becomes the text "None". -/
def optStr (o : Option String) : String :=
  match o with
  | none => "None"
  | some s => s

/-- Python truthiness of a str-or-None value: None and the empty string are
falsy, every other string is truthy. -/
def py_truthy (o : Option String) : Bool :=
  match o with
  | none => false
  | some s => !s.data.isEmpty

/-- Python " " * n. -/
def spaces (n : Nat) : String := String.mk (List.replicate n ' ')

/-- Replace every occurrence of a single character by a replacement string
(the behaviour of Python str.replace with a one-character needle). -/
def repl1 (c : Char) (r : List Char) (l : List Char) : List Char :=
  l.flatMap (fun x => if x = c then r else [x])

/-- xml_escape from the source: the five XML reserved characters are replaced
in sequence, ampersand first. -/
def xml_escape (s : String) : String :=
  String.mk (repl1 '\'' "&apos;".data (repl1 '"' "&quot;".data
    (repl1 '>' "&gt;".data (repl1 '<' "&lt;".data (repl1 '&' "&amp;".data s.data)))))

/-! ### Decimal digits, parsing and formatting -/

/-- Numeric value of a big-endian list of digit characters (Horner fold). -/
def digitsVal (l : List Char) : Nat :=
  l.foldl (fun a c => 10 * a + (c.toNat - 48)) 0

/-- Fuel-driven decimal rendering of a natural number (big-endian digit
characters); structural on the fuel so it reduces in the kernel. -/
def natDigitsGo : Nat → Nat → List Char
  | 0, _ => []
  | fuel + 1, n =>
    if n < 10 then [dchar n]
    else natDigitsGo fuel (n / 10) ++ [dchar (n % 10)]

/-- Decimal digit characters of a natural number, as produced by Python
formatting of a non-negative integer. -/
def natDigits (n : Nat) : List Char := natDigitsGo (n + 1) n

/-- Two decimal digits, zero padded (fraction part of a :.2f rendering). -/
def pad2c (k : Nat) : List Char :=
  if k < 10 then '0' :: natDigits k else natDigits k

/-- Left-pad the decimal rendering of n with zeros to a given width
(Python %0wd formatting). -/
def padNc (w n : Nat) : List Char :=
  List.replicate (w - (natDigits n).length) '0' ++ natDigits n

/-- Round n / d (both natural, d positive) to the nearest integer, ties to
even: the rounding used by Python float formatting (exact on the decimal
inputs exercised here). -/
def natRhe (n d : Nat) : Nat :=
  let f := n / d
  let r2 := 2 * (n % d)
  if r2 < d then f
  else if d < r2 then f + 1
  else if f % 2 = 0 then f else f + 1

/-- Python f"{x:.2f}" applied to a non-negative magnitude n (in hundredths),
with an explicit sign flag: Python prints the sign of the float, including
on a negative zero, so the sign is carried separately from the magnitude. -/
def formatSigned2 (neg : Bool) (n : Nat) : String :=
  String.mk ((if neg then ['-'] else []) ++ natDigits (n / 100) ++ '.' :: pad2c (n % 100))

/-- A parsed non-negative decimal numeral as an exact scaled integer:
mantissa m and scale k denote the value m / 10 ^ k. -/
abbrev DecQ := Nat × Nat

/-- A parsed signed decimal numeral: signed mantissa s and scale k denote
the value s / 10 ^ k. -/
abbrev DecZ := Int × Nat

/-- Parse an unsigned decimal numeral (digits with at most one point, at
least one digit), the fragment of Python float() syntax exercised by the
converter; anything else is unparseable. -/
def parseDecimalL (l : List Char) : Option DecQ :=
  let ip := l.takeWhile (fun c => c != '.')
  match l.dropWhile (fun c => c != '.') with
  | [] =>
    if ip ≠ [] ∧ ip.all Char.isDigit then some (digitsVal ip, 0) else none
  | c :: fp =>
    if c = '.' ∧ ip.all Char.isDigit ∧ fp.all Char.isDigit ∧ (ip ≠ [] ∨ fp ≠ []) then
      some (digitsVal ip * 10 ^ fp.length + digitsVal fp, fp.length)
    else none

/-- Python float() on a stripped string, as an exact signed scaled
integer: optional sign followed by a decimal numeral. -/
def pyFloat (s : String) : Option DecZ :=
  match stripChars s.data with
  | '-' :: rest => (parseDecimalL rest).map (fun mk => (-(mk.1 : Int), mk.2))
  | '+' :: rest => (parseDecimalL rest).map (fun mk => ((mk.1 : Int), mk.2))
  | l => (parseDecimalL l).map (fun mk => ((mk.1 : Int), mk.2))

/-- Exact equality of the value of x with the negated value of y
(the float comparison a == -b on exactly represented decimals). -/
def val_eq_neg (x y : DecZ) : Bool :=
  x.1 * (Int.ofNat (10 ^ y.2)) == -y.1 * (Int.ofNat (10 ^ x.2))

/-- Python f"{x:.2f}" on the exact product -(q * p) of two parsed signed
decimals (the derived buy amount -quantity * price). -/
def formatNegProd2 (q p : DecZ) : String :=
  formatSigned2 (decide (0 < q.1 * p.1)) (natRhe ((q.1 * p.1).natAbs * 100) (10 ^ (q.2 + p.2)))

/-- Python f"{x:.9f}" on the non-negative exact quotient n / d. -/
def formatDiv9 (n d : Nat) : String :=
  String.mk (natDigits (natRhe (n * 10 ^ 9) d / 10 ^ 9)
    ++ '.' :: padNc 9 (natRhe (n * 10 ^ 9) d % 10 ^ 9))

/-! ### Field normalization (source lines 108-144) -/

/-- The parenthesized-negative test of normalize_currency (source lines
112-115): a value wrapped in parentheses is negative and loses its outer
characters. -/
def currency_paren (s : List Char) : Bool × List Char :=
  if s.head? = some '(' ∧ s.getLast? = some ')' then (true, (s.drop 1).dropLast)
  else (false, s)

/-- The steps of normalize_currency after the parenthesis test: strip the
currency symbol and thousands separators, re-strip whitespace, then detect
and remove a leading minus sign (source lines 116-119). -/
def currency_minus (pr : Bool × List Char) : Bool × List Char :=
  let s2 := stripChars ((pr.2.filter (fun c => c != '$')).filter (fun c => c != ','))
  if s2.head? = some '-' then (true, stripChars (s2.dropWhile (fun c => c == '-')))
  else (pr.1, s2)

/-- The whole sign-and-cleanup pipeline: none when the stripped input is
empty, otherwise the sign flag and cleaned numeral characters. -/
def currency_core (value : String) : Option (Bool × List Char) :=
  let s := stripChars value.data
  if s = [] then none
  else some (currency_minus (currency_paren s))

/-- normalize_currency (source lines 108-127): none on empty input,
"0.00" on unparseable non-empty input (returned before the invert flag is
consulted, as in the source), otherwise the value formatted to two fraction
digits with the sign flag, flipped when inverseAmount is set. -/
def normalize_currency (value : String) (inverseAmount : Bool) : Option String :=
  match currency_core value with
  | none => none
  | some (negative, s) =>
    match parseDecimalL s with
    | none => some "0.00"
    | some mk =>
      let negative2 := if inverseAmount then !negative else negative
      some (formatSigned2 negative2 (natRhe (mk.1 * 100) (10 ^ mk.2)))

/-- normalize_quantity (source lines 129-130): strip whitespace and remove
thousands separators; sign and decimal form preserved verbatim. -/
def normalize_quantity (value : String) : String :=
  String.mk ((stripChars value.data).filter (fun c => c != ','))

/-- compute_price (source lines 132-144): |amount| / |quantity| to nine
fraction digits, "0.00" when either operand is unparseable or the quantity
is zero. -/
def compute_price (quantity amount : String) : String :=
  match pyFloat quantity, pyFloat amount with
  | some q0, some a0 =>
    if q0.1 = 0 then "0.00"
    else formatDiv9 (a0.1.natAbs * 10 ^ q0.2) (q0.1.natAbs * 10 ^ a0.2)
  | _, _ => "0.00"

/-! ### Dates (source lines 93-106, 327-330, 480-481) -/

/-- A calendar date as held by a Python datetime (time-of-day is never used
by the modelled logic). -/
structure PyDate where
  year : Nat
  month : Nat
  day : Nat
deriving DecidableEq

/-- Gregorian leap-year test. -/
def isLeapYear (y : Nat) : Bool :=
  y % 4 = 0 && (y % 100 != 0 || y % 400 = 0)

/-- Days in a month of the Gregorian calendar. -/
def days_in_month (y m : Nat) : Nat :=
  if m = 2 then (if isLeapYear y then 29 else 28)
  else if m = 4 ∨ m = 6 ∨ m = 9 ∨ m = 11 then 30
  else 31

/-- Validity of a calendar date as enforced by the Python datetime
constructor (year at least 1). -/
def validDate (y m d : Nat) : Bool :=
  decide (1 ≤ y ∧ 1 ≤ m ∧ m ≤ 12 ∧ 1 ≤ d ∧ d ≤ days_in_month y m)

/-- strptime with format %m/%d/%Y: one or two digit month and day, four
digit year, slash separated, and a valid calendar date. -/
def parse_mdy (t : String) : Option PyDate :=
  match t.data.splitOn '/' with
  | [ms, ds, ys] =>
    if ms.all Char.isDigit ∧ ds.all Char.isDigit ∧ ys.all Char.isDigit ∧
        1 ≤ ms.length ∧ ms.length ≤ 2 ∧ 1 ≤ ds.length ∧ ds.length ≤ 2 ∧ ys.length = 4 ∧
        validDate (digitsVal ys) (digitsVal ms) (digitsVal ds) = true then
      some ⟨digitsVal ys, digitsVal ms, digitsVal ds⟩
    else none
  | _ => none

/-- strptime with format %Y-%m-%d. -/
def parse_ymd (t : String) : Option PyDate :=
  match t.data.splitOn '-' with
  | [ys, ms, ds] =>
    if ms.all Char.isDigit ∧ ds.all Char.isDigit ∧ ys.all Char.isDigit ∧
        1 ≤ ms.length ∧ ms.length ≤ 2 ∧ 1 ≤ ds.length ∧ ds.length ≤ 2 ∧ ys.length = 4 ∧
        validDate (digitsVal ys) (digitsVal ms) (digitsVal ds) = true then
      some ⟨digitsVal ys, digitsVal ms, digitsVal ds⟩
    else none
  | _ => none

/-- parse_date (source lines 93-100): strip, then %m/%d/%Y, then %Y-%m-%d,
none if neither matches. -/
def parse_date (date_str : String) : Option PyDate :=
  match parse_mdy (stripStr date_str) with
  | some d => some d
  | none => parse_ymd (stripStr date_str)

/-- strftime %Y%m%d. -/
def fmtYYYYMMDD (d : PyDate) : String :=
  String.mk (padNc 4 d.year ++ padNc 2 d.month ++ padNc 2 d.day)

/-- strptime with format %Y%m%d (used to derive the settlement date from an
already-formatted trade date). -/
def parse_yyyymmdd_str (s : String) : Option PyDate :=
  if s.data.length = 8 ∧ s.data.all Char.isDigit then
    let y := digitsVal (s.data.take 4)
    let m := digitsVal ((s.data.drop 4).take 2)
    let d := digitsVal (s.data.drop 6)
    if validDate y m d then some ⟨y, m, d⟩ else none
  else none

/-- Next calendar day. -/
def next_day (d : PyDate) : PyDate :=
  if d.day < days_in_month d.year d.month then ⟨d.year, d.month, d.day + 1⟩
  else if d.month < 12 then ⟨d.year, d.month + 1, 1⟩
  else ⟨d.year + 1, 1, 1⟩

/-- Settlement date string (source lines 326-330): trade date plus two days
when the date string parses as %Y%m%d, otherwise the unadjusted string. -/
def settle_date_str (date_str : String) : String :=
  match parse_yyyymmdd_str date_str with
  | some d => fmtYYYYMMDD (next_day (next_day d))
  | none => date_str

/-- format_ofx_datetime on a parsed date (source lines 102-106): fixed
local-noon time-of-day and fixed timezone suffix. -/
def format_ofx_datetime (d : PyDate) : String :=
  fmtYYYYMMDD d ++ "120000.000[-5:EST]"

/-- format_ofx_datetime on an optional date: the None branch uses the
current time, passed here as an explicit now parameter. -/
def format_ofx_datetime_opt (now : PyDate) (o : Option PyDate) : String :=
  format_ofx_datetime (o.getD now)

/-- Python datetime comparison restricted to dates. -/
def dateLT (a b : PyDate) : Bool :=
  decide (a.year < b.year ∨ (a.year = b.year ∧
    (a.month < b.month ∨ (a.month = b.month ∧ a.day < b.day))))

/-! ### Data model -/

/-- One parsed CSV row (the required columns, already header-normalized). -/
structure Row where
  Date : String
  Account : String
  Activity : String
  Description : String
  CUSIP : String
  Symbol : String
  Quantity : String
  Price : String
  Amount : String
deriving DecidableEq, Inhabited

/-- SecurityInfo from the source: identifier plus the formatted SECLIST
entry. -/
structure SecurityInfo where
  uniqueid : String
  info_entry : String
deriving DecidableEq, Inhabited

/-- TransactionEntry from the source: the fragment text and the cash-type
flag used for output ordering. -/
structure TransactionEntry where
  txn_str : String
  is_invbanktran : Bool
deriving DecidableEq, Inhabited

/-- One entry of the missing_cusip_mapping configuration list. -/
structure MissingCusipRule where
  description_regex : String
  uniqueid : String
  symbol : String
  info_tag : String

/-- External collaborators: the fund-vs-equity lookup (is_mutual_fund,
backed by a stocks database), the regex search used against the
missing-CUSIP fallback table, and that table itself (loaded from the
configuration file before processing starts). -/
structure Env where
  isMutualFund : String → Bool
  reSearch : String → String → Bool
  missingCusipMappings : List MissingCusipRule

/-- The fatal error taxonomy of the converter.  The source raises Python
exceptions (ValueError, TypeError, AttributeError) with distinct messages;
each raise site is modelled by a distinct constructor named after the
error taxonomy of the specification. -/
inductive Err where
  | unresolvedSecurity
  | unknownActivity
  | incompleteTransaction
  | missingIdentifier
  | typeErr
  | valueErr
  | attrErr
  | accountNotMapped
  | noAccountInfo
deriving DecidableEq

/-- True exactly on a successful result. -/
def exceptOk {α : Type} (e : Except Err α) : Bool :=
  match e with
  | Except.ok _ => true
  | Except.error _ => false

/-! ### SECID and security-info generation (source lines 166-284) -/

/-- cash_secid (source lines 166-175). -/
def cash_secid (indent : Nat) : String :=
  let indent_str := spaces indent
  indent_str ++ "<SECID>\n" ++
  indent_str ++ "  <UNIQUEID>CASH</UNIQUEID>\n" ++
  indent_str ++ "  <UNIQUEIDTYPE>CUSIP</UNIQUEIDTYPE>\n" ++
  indent_str ++ "</SECID>\n"

/-- generate_buysell_secid (source lines 204-247): with a CUSIP emit the
CUSIP block; otherwise the first missing-CUSIP rule whose regex matches the
description wins, and no match is the unresolved-security failure.  The
uninitialized-mappings RuntimeError branch is unreachable once main has
loaded the configuration and is not modelled. -/
def generate_buysell_secid (env : Env) (row : Row) (indent : Nat) : Except Err String :=
  let indent_str := spaces indent
  let cusip := stripStr row.CUSIP
  if cusip = "" then
    match env.missingCusipMappings.find?
        (fun m => env.reSearch m.description_regex (stripStr row.Description)) with
    | some m =>
      Except.ok (indent_str ++ "<SECID>\n" ++
        indent_str ++ "  <UNIQUEID>" ++ m.uniqueid ++ "</UNIQUEID>\n" ++
        indent_str ++ "  <UNIQUEIDTYPE>OTHER</UNIQUEIDTYPE>\n" ++
        indent_str ++ "</SECID>\n")
    | none => Except.error Err.unresolvedSecurity
  else
    Except.ok (indent_str ++ "<SECID>\n" ++
      indent_str ++ "  <UNIQUEID>" ++ cusip ++ "</UNIQUEID>\n" ++
      indent_str ++ "  <UNIQUEIDTYPE>CUSIP</UNIQUEIDTYPE>\n" ++
      indent_str ++ "</SECID>\n")

/-- generate_buysell_security_info (source lines 249-284): with a CUSIP the
symbol defaults to the CUSIP and the fund-vs-equity lookup picks the info
tag; otherwise the first matching missing-CUSIP rule supplies tag, symbol
and entry key. -/
def generate_buysell_security_info (env : Env) (row : Row) : Except Err SecurityInfo :=
  let symbol := stripStr row.Symbol
  let cusip := stripStr row.CUSIP
  if cusip = "" then
    match env.missingCusipMappings.find?
        (fun m => env.reSearch m.description_regex (stripStr row.Description)) with
    | some m =>
      match generate_buysell_secid env row 10 with
      | Except.error e => Except.error e
      | Except.ok secid =>
        Except.ok ⟨m.symbol,
          "      <" ++ m.info_tag ++ ">\n" ++
          "        <SECINFO>\n" ++
          secid ++
          "          <SECNAME>" ++ m.symbol ++ "</SECNAME>\n" ++
          "          <TICKER>" ++ m.symbol ++ "</TICKER>\n" ++
          "        </SECINFO>\n" ++
          "      </" ++ m.info_tag ++ ">\n"⟩
    | none => Except.error Err.unresolvedSecurity
  else
    let symbol1 := if symbol = "" then cusip else symbol
    let info_tag := if env.isMutualFund symbol1 then "MFINFO" else "STOCKINFO"
    match generate_buysell_secid env row 10 with
    | Except.error e => Except.error e
    | Except.ok secid =>
      Except.ok ⟨cusip,
        "      <" ++ info_tag ++ ">\n" ++
        "        <SECINFO>\n" ++
        secid ++
        "          <SECNAME>" ++ symbol1 ++ "</SECNAME>\n" ++
        "          <TICKER>" ++ symbol1 ++ "</TICKER>\n" ++
        "        </SECINFO>\n" ++
        "      </" ++ info_tag ++ ">\n"⟩

/-! ### Transaction generators (source lines 286-531) -/

/-- generate_buysell_transaction (source lines 286-348).  With a quantity
and an amount the unit price is recomputed from them (the source logs a
warning on a large discrepancy with a supplied price but always uses the
computed price; the log line has no other effect and is not modelled).
With a quantity and a price but no amount, the amount is derived as
-quantity * price ("0.00" when either float conversion fails).  Otherwise
the transaction is incomplete. -/
def generate_buysell_transaction (env : Env) (row : Row) (sell : Bool)
    (fitid date_str : String) (amount_default : Option String) :
    Except Err (String × Option SecurityInfo) :=
  let activity := stripStr row.Activity
  let description := stripStr row.Description
  let quantity := normalize_quantity row.Quantity
  let price0 := normalize_currency row.Price false
  let amount0 := normalize_currency row.Amount false
  let amount1 := match amount0 with
    | none => amount_default
    | some a => some a
  let buysell := if sell then "SELL" else "BUY"
  let resolved : Except Err (String × String) :=
    match amount1 with
    | some a =>
      if quantity = "" then Except.error Err.incompleteTransaction
      else Except.ok (compute_price quantity a, a)
    | none =>
      match price0 with
      | some p =>
        if quantity = "" then Except.error Err.incompleteTransaction
        else
          Except.ok (p, match pyFloat quantity, pyFloat p with
            | some q, some pv => formatNegProd2 q pv
            | _, _ => "0.00")
      | none => Except.error Err.incompleteTransaction
  match resolved with
  | Except.error e => Except.error e
  | Except.ok pa =>
    let outer :=
      if sell then (if env.isMutualFund (stripStr row.Symbol) then "SELLMF" else "SELLSTOCK")
      else (if env.isMutualFund (stripStr row.Symbol) then "BUYMF" else "BUYSTOCK")
    let dt_settle := settle_date_str date_str
    match generate_buysell_secid env row 12 with
    | Except.error e => Except.error e
    | Except.ok secid =>
      match generate_buysell_security_info env row with
      | Except.error e => Except.error e
      | Except.ok sinfo =>
        Except.ok (
          "          <" ++ outer ++ ">\n" ++
          "            <INV" ++ buysell ++ ">\n" ++
          "            <INVTRAN>\n" ++
          "              <FITID>" ++ fitid ++ "</FITID>\n" ++
          "              <DTTRADE>" ++ date_str ++ "</DTTRADE>\n" ++
          "              <DTSETTLE>" ++ dt_settle ++ "</DTSETTLE>\n" ++
          "              <MEMO>" ++ activity ++ ": " ++ xml_escape description ++ "</MEMO>\n" ++
          "            </INVTRAN>\n" ++
          secid ++
          "            <UNITS>" ++ quantity ++ "</UNITS>\n" ++
          "            <UNITPRICE>" ++ pa.1 ++ "</UNITPRICE>\n" ++
          "            <TOTAL>" ++ pa.2 ++ "</TOTAL>\n" ++
          "            <SUBACCTSEC>CASH</SUBACCTSEC>\n" ++
          "            <SUBACCTFUND>CASH</SUBACCTFUND>\n" ++
          "            </INV" ++ buysell ++ ">\n" ++
          "            <" ++ buysell ++ "TYPE>" ++ buysell ++ "</" ++ buysell ++ "TYPE>\n" ++
          "          </" ++ outer ++ ">\n",
          some sinfo)

/-- generate_fee_transaction (source lines 353-371): an INVBANKTRAN with
TRNTYPE FEE and no security reference. -/
def generate_fee_transaction (row : Row) (fitid date_str : String)
    (inverseAmount : Bool) : String × Option SecurityInfo :=
  ("          <INVBANKTRAN>\n" ++
   "            <STMTTRN>\n" ++
   "              <TRNTYPE>FEE</TRNTYPE>\n" ++
   "              <DTPOSTED>" ++ date_str ++ "</DTPOSTED>\n" ++
   "              <TRNAMT>" ++ optStr (normalize_currency row.Amount inverseAmount) ++ "</TRNAMT>\n" ++
   "              <FITID>" ++ fitid ++ "</FITID>\n" ++
   "              <MEMO>" ++ stripStr row.Activity ++ ": " ++ xml_escape (stripStr row.Description) ++ "</MEMO>\n" ++
   "              <CURRENCY>\n" ++
   "                <CURRATE>1.0</CURRATE>\n" ++
   "                <CURSYM>USD</CURSYM>\n" ++
   "              </CURRENCY>\n" ++
   "            </STMTTRN>\n" ++
   "            <SUBACCTFUND>CASH</SUBACCTFUND>\n" ++
   "          </INVBANKTRAN>\n",
   none)

/-- The TRNAMT value of an interest transaction (source line 455): the
already-normalized amount string is passed as the inversion flag of a
second normalization call, so any non-None (hence non-empty) normalized
amount enables inversion. -/
def intrest_trnamt (row : Row) : Option String :=
  let amount := normalize_currency row.Amount false
  normalize_currency row.Amount (py_truthy amount)

/-- Lines of generate_intrest_transaction before the TRNAMT value
(source lines 451-455). -/
def intrest_pre (date_str : String) : String :=
  "          <INVBANKTRAN>\n" ++
  "            <STMTTRN>\n" ++
  "              <TRNTYPE>INT</TRNTYPE>\n" ++
  "              <DTPOSTED>" ++ date_str ++ "</DTPOSTED>\n" ++
  "              <TRNAMT>"

/-- Lines of generate_intrest_transaction after the TRNAMT value
(source lines 455-464). -/
def intrest_post (row : Row) (fitid : String) : String :=
  "</TRNAMT>\n" ++
  "              <FITID>" ++ fitid ++ "</FITID>\n" ++
  "              <MEMO>" ++ stripStr row.Activity ++ ": " ++ xml_escape (stripStr row.Description) ++ "</MEMO>\n" ++
  "              <CURRENCY>\n" ++
  "                <CURRATE>1.0</CURRATE>\n" ++
  "                <CURSYM>USD</CURSYM>\n" ++
  "              </CURRENCY>\n" ++
  "            </STMTTRN>\n" ++
  "            <SUBACCTFUND>CASH</SUBACCTFUND>\n" ++
  "          </INVBANKTRAN>\n"

/-- generate_intrest_transaction (source lines 442-465): an INVBANKTRAN
with TRNTYPE INT, no security reference, TRNAMT as in intrest_trnamt. -/
def generate_intrest_transaction (row : Row) (fitid date_str : String) :
    String × Option SecurityInfo :=
  (intrest_pre date_str ++ optStr (intrest_trnamt row) ++ intrest_post row fitid, none)

/-- generate_income_transaction (source lines 399-440): requires a CUSIP;
with one, emits an INCOME block and resolves the security entry; without
one fails with the missing-identifier error before any fallback. -/
def generate_income_transaction (env : Env) (row : Row)
    (fitid date_str incometype : String) : Except Err (String × Option SecurityInfo) :=
  let description := stripStr row.Description
  let amount := normalize_currency row.Amount false
  let dttrade := date_str ++ "120000.000[-5:EST]"
  let invtran :=
    "            <INVTRAN>\n" ++
    "              <FITID>" ++ fitid ++ "</FITID>\n" ++
    "              <DTTRADE>" ++ dttrade ++ "</DTTRADE>\n" ++
    "              <MEMO>" ++ xml_escape description ++ "</MEMO>\n" ++
    "            </INVTRAN>\n"
  let cusip := stripStr row.CUSIP
  if cusip = "" then Except.error Err.missingIdentifier
  else
    let secid :=
      "            <SECID>\n" ++
      "              <UNIQUEID>" ++ cusip ++ "</UNIQUEID>\n" ++
      "              <UNIQUEIDTYPE>CUSIP</UNIQUEIDTYPE>\n" ++
      "            </SECID>\n"
    match generate_buysell_security_info env row with
    | Except.error e => Except.error e
    | Except.ok secid_info =>
      Except.ok (
        "          <INCOME>\n" ++ invtran ++ secid ++
        "            <INCOMETYPE>" ++ incometype ++ "</INCOMETYPE>\n" ++
        "            <TOTAL>" ++ optStr amount ++ "</TOTAL>\n" ++
        "            <SUBACCTSEC>CASH</SUBACCTSEC>\n" ++
        "            <SUBACCTFUND>CASH</SUBACCTFUND>\n" ++
        "          </INCOME>\n",
        some secid_info)

/-- The transfer-direction tag of a cash transfer (source line 501): OUT
exactly when the normalized amount string starts with a minus sign. -/
def cash_transfer_dir (a : String) : String :=
  if a.data.head? = some '-' then "OUT" else "IN"

/-- The DTTRADE value used by the transfer generator (source lines 480-481). -/
def full_date_of (row : Row) (date_str : String) : String :=
  match parse_date row.Date with
  | some d => format_ofx_datetime d
  | none => date_str ++ "120000.000[-5:EST]"

/-- Cash-transfer fragment up to the transfer-direction tag
(source lines 491-499). -/
def cash_transfer_pre (activity description fitid full_date a : String) : String :=
  "          <TRANSFER>\n" ++
  "            <INVTRAN>\n" ++
  "              <FITID>" ++ fitid ++ "</FITID>\n" ++
  "              <DTTRADE>" ++ full_date ++ "</DTTRADE>\n" ++
  "              <MEMO>" ++ activity ++ ": " ++ xml_escape description ++ "</MEMO>\n" ++
  "            </INVTRAN>\n" ++
  cash_secid 12 ++
  "            <SUBACCTSEC>CASH</SUBACCTSEC>\n" ++
  "            <UNITS>" ++ a ++ "</UNITS>\n"

/-- Cash-transfer fragment after the transfer-direction tag
(source lines 503-504). -/
def cash_transfer_post : String :=
  "            <POSTYPE>LONG</POSTYPE>\n" ++
  "          </TRANSFER>\n"

/-- The constant security entry emitted for cash transfers
(source lines 505-512). -/
def cash_security_info : SecurityInfo :=
  ⟨"CASH",
   "      <OTHERINFO>\n" ++
   "        <SECINFO>\n" ++
   cash_secid 10 ++
   "          <SECNAME>Cash Balance</SECNAME>\n" ++
   "        </SECINFO>\n" ++
   "      </OTHERINFO>"⟩

/-- Security-transfer fragment up to the transfer-direction tag
(source lines 515-526). -/
def sec_transfer_pre (activity description cusip quantity fitid full_date : String) : String :=
  "  <TRANSFER>\n" ++
  "    <INVTRAN>\n" ++
  "      <FITID>" ++ fitid ++ "</FITID>\n" ++
  "      <DTTRADE>" ++ full_date ++ "</DTTRADE>\n" ++
  "      <MEMO>" ++ activity ++ ": " ++ xml_escape description ++ "</MEMO>\n" ++
  "    </INVTRAN>\n" ++
  "    <SECID>\n" ++
  "      <UNIQUEID>" ++ cusip ++ "</UNIQUEID>\n" ++
  "      <UNIQUEIDTYPE>CUSIP</UNIQUEIDTYPE>\n" ++
  "    </SECID>\n" ++
  "    <SUBACCTSEC>CASH</SUBACCTSEC>\n" ++
  "    <UNITS>" ++ quantity ++ "</UNITS>\n"

/-- Security-transfer fragment after the transfer-direction tag
(source lines 529-530). -/
def sec_transfer_post : String :=
  "    <POSTYPE>LONG</POSTYPE>\n" ++
  "  </TRANSFER>\n"

/-- generate_asset_transfer (source lines 470-531).  No CUSIP means a cash
transfer: the UNITS value is the normalized amount and the direction tag is
derived from its sign; a None amount crashes the source on
amount.startswith (AttributeError), modelled as the attrErr failure.  With
a CUSIP, the source computes a direction from the quantity sign but emits
the literal IN regardless (the computed value is dead; see the claim about
transfer directions), and resolves the security entry like buy/sell. -/
def generate_asset_transfer (env : Env) (row : Row) (fitid date_str : String) :
    Except Err (String × Option SecurityInfo) :=
  let full_date := full_date_of row date_str
  let activity := stripStr row.Activity
  let description := stripStr row.Description
  let cusip := stripStr row.CUSIP
  let quantity := normalize_quantity row.Quantity
  let amount := normalize_currency row.Amount false
  if cusip = "" then
    match amount with
    | none => Except.error Err.attrErr
    | some a =>
      Except.ok (
        cash_transfer_pre activity description fitid full_date a ++
        "            <TFERACTION>" ++ cash_transfer_dir a ++ "</TFERACTION>\n" ++
        cash_transfer_post,
        some cash_security_info)
  else
    match generate_buysell_security_info env row with
    | Except.error e => Except.error e
    | Except.ok sinfo =>
      Except.ok (
        sec_transfer_pre activity description cusip quantity fitid full_date ++
        "    <TFERACTION>IN</TFERACTION>\n" ++
        sec_transfer_post,
        some sinfo)

/-! ### Dispatch (source lines 185-196 and 533-589) -/

/-- is_funding_activity (source lines 185-196): Activity "buy",
Description ending in "initial" (case-insensitive), empty CUSIP and
Symbol, and float(normalize_currency(Amount)) == -float(Quantity).  The
final comparison is only evaluated when the boolean conditions hold
(Python short-circuit); a None normalized amount then raises TypeError and
an unparseable quantity raises ValueError, both modelled as failures. -/
def is_funding_activity (row : Row) : Except Err Bool :=
  if (lowerStr (stripStr row.Activity) == "buy"
      && List.isSuffixOf "initial".data (lowerStr (stripStr row.Description)).data
      && stripStr row.CUSIP == ""
      && stripStr row.Symbol == "") then
    match normalize_currency row.Amount false with
    | none => Except.error Err.typeErr
    | some a =>
      match pyFloat a, pyFloat row.Quantity with
      | some x, some y => Except.ok (val_eq_neg x y)
      | _, _ => Except.error Err.valueErr
  else Except.ok false

/-- The txn-entry wrapper of the source (lines 198-199): pair the fragment
with its cash-type flag and pass the security entry through. -/
def make_txn_entry (is_invbanktran : Bool) (td : String × Option SecurityInfo) :
    TransactionEntry × Option SecurityInfo :=
  (⟨td.1, is_invbanktran⟩, td.2)

/-- The trade-date string of a row (source lines 561-562): %Y%m%d, or the
eight-zero placeholder when the date fails to parse. -/
def date_str_of (row : Row) : String :=
  match parse_date row.Date with
  | some d => fmtYYYYMMDD d
  | none => "00000000"

/-- The FITID of a row (source line 563): prefix, trade date, zero-padded
four-digit counter. -/
def fitid_of (row : Row) (counter : Nat) : String :=
  "TXN" ++ date_str_of row ++ String.mk (padNc 4 counter)

/-- The Activity keywords recognized by the dispatch (source lines
568-587). -/
def recognized_activities : List String :=
  ["buy", "reinvest dividend", "rein stc gain", "rein cap gain", "sell",
   "asset trf", "ach activity", "dividend", "interest", "lt cap gain",
   "shrt trm gain", "advisory fee", "journal", "reinvest dist"]

/-- generate_transaction (source lines 533-589): the funding-activity
override is checked first (a funding row is handled by the transfer
generator even though its Activity is "buy"), then the keyword dispatch in
source order; any unrecognized Activity is the unknown-activity failure. -/
def generate_transaction (env : Env) (row : Row) (counter : Nat) :
    Except Err (TransactionEntry × Option SecurityInfo) :=
  let date_str := date_str_of row
  let fitid := fitid_of row counter
  let act_lower := lowerStr (stripStr row.Activity)
  match is_funding_activity row with
  | Except.error e => Except.error e
  | Except.ok funding =>
    if funding then
      Except.map (make_txn_entry false) (generate_asset_transfer env row fitid date_str)
    else if act_lower = "buy" ∨ act_lower = "reinvest dividend" ∨
        act_lower = "rein stc gain" ∨ act_lower = "rein cap gain" then
      Except.map (make_txn_entry false) (generate_buysell_transaction env row false fitid date_str none)
    else if act_lower = "sell" then
      Except.map (make_txn_entry false) (generate_buysell_transaction env row true fitid date_str none)
    else if act_lower = "asset trf" ∨ act_lower = "ach activity" then
      Except.map (make_txn_entry false) (generate_asset_transfer env row fitid date_str)
    else if act_lower = "dividend" then
      Except.map (make_txn_entry false) (generate_income_transaction env row fitid date_str "DIV")
    else if act_lower = "interest" then
      Except.ok (make_txn_entry true (generate_intrest_transaction row fitid date_str))
    else if act_lower = "lt cap gain" then
      Except.map (make_txn_entry false) (generate_income_transaction env row fitid date_str "CGLONG")
    else if act_lower = "shrt trm gain" then
      Except.map (make_txn_entry false) (generate_income_transaction env row fitid date_str "CGSHORT")
    else if act_lower = "advisory fee" then
      Except.ok (make_txn_entry true (generate_fee_transaction row fitid date_str false))
    else if act_lower = "journal" then
      Except.ok (make_txn_entry true (generate_fee_transaction row fitid date_str false))
    else if act_lower = "reinvest dist" then
      Except.map (make_txn_entry false) (generate_buysell_transaction env row false fitid date_str (some "0.0"))
    else Except.error Err.unknownActivity

/-! ### Main accumulation loop and document assembly (source lines 621-749) -/

/-- The row-processing loop of main (source lines 646-660), with the
security dictionary represented by the list of already-seen identifiers:
each row is generated at its counter, transactions are kept in row order,
and a security entry is kept only when its identifier has not been seen
(first writer wins, order of first appearance).  Any generator failure
aborts the whole loop. -/
def mainLoopGo (env : Env) (rows : List Row) (counter : Nat) (seen : List String) :
    Except Err (List TransactionEntry × List SecurityInfo) :=
  match rows with
  | [] => Except.ok ([], [])
  | r :: rs =>
    match generate_transaction env r counter with
    | Except.error e => Except.error e
    | Except.ok (te, si) =>
      match si with
      | none =>
        match mainLoopGo env rs (counter + 1) seen with
        | Except.error e => Except.error e
        | Except.ok (ts, ss) => Except.ok (te :: ts, ss)
      | some s =>
        if s.uniqueid ∈ seen then
          match mainLoopGo env rs (counter + 1) seen with
          | Except.error e => Except.error e
          | Except.ok (ts, ss) => Except.ok (te :: ts, ss)
        else
          match mainLoopGo env rs (counter + 1) (s.uniqueid :: seen) with
          | Except.error e => Except.error e
          | Except.ok (ts, ss) => Except.ok (te :: ts, s :: ss)

/-- The full row loop, starting at counter 1 with no securities seen. -/
def mainLoop (env : Env) (rows : List Row) :
    Except Err (List TransactionEntry × List SecurityInfo) :=
  mainLoopGo env rows 1 []

/-- The sequence of security entries produced by the generators in row
order, before deduplication (a specification-side companion of the loop,
used to state first-writer-wins). -/
def genInfos (env : Env) (rows : List Row) (counter : Nat) :
    Except Err (List SecurityInfo) :=
  match rows with
  | [] => Except.ok []
  | r :: rs =>
    match generate_transaction env r counter with
    | Except.error e => Except.error e
    | Except.ok (_, si) =>
      match genInfos env rs (counter + 1) with
      | Except.error e => Except.error e
      | Except.ok rest =>
        Except.ok (match si with
          | some s => s :: rest
          | none => rest)

/-- First-occurrence deduplication by identifier, keeping input order, with
an explicit set of already-seen identifiers. -/
def dedupFirstSeen (seen : List String) : List SecurityInfo → List SecurityInfo
  | [] => []
  | s :: rest =>
    if s.uniqueid ∈ seen then dedupFirstSeen seen rest
    else s :: dedupFirstSeen (s.uniqueid :: seen) rest

/-- The transaction-ordering step of main (source lines 669-672): all
fragments not flagged cash-type (INVBANKTRAN), in input order, followed by
all cash-type fragments, in input order. -/
def all_txns (transactions : List TransactionEntry) : List String :=
  (transactions.filter (fun t => !t.is_invbanktran)).map (fun t => t.txn_str) ++
  (transactions.filter (fun t => t.is_invbanktran)).map (fun t => t.txn_str)

/-- The fixed envelope, sign-on and statement header lines of the document
(source lines 675-721). -/
def qfx_header_lines (account_id dtnow dtasof dtstart dtend : String) : List String :=
  ["OFXHEADER:100",
   "DATA:OFXSGML",
   "VERSION:102",
   "SECURITY:NONE",
   "ENCODING:USASCII",
   "CHARSET:1252",
   "COMPRESSION:NONE",
   "OLDFILEUID:NONE",
   "NEWFILEUID:NONE",
   "",
   "<OFX>",
   "  <SIGNONMSGSRSV1>",
   "    <SONRS>",
   "      <STATUS>",
   "        <CODE>0</CODE>",
   "        <SEVERITY>INFO</SEVERITY>",
   "      </STATUS>",
   "      <DTSERVER>" ++ dtnow ++ "</DTSERVER>",
   "      <LANGUAGE>ENG</LANGUAGE>",
   "      <FI>",
   "        <ORG>4705</ORG>",
   "      </FI>",
   "      <INTU.BID>4705</INTU.BID>",
   "      <INTU.USERID>U424465</INTU.USERID>",
   "    </SONRS>",
   "  </SIGNONMSGSRSV1>",
   "  <INVSTMTMSGSRSV1>",
   "    <INVSTMTTRNRS>",
   "      <TRNUID>0</TRNUID>",
   "      <STATUS>",
   "        <CODE>0</CODE>",
   "        <SEVERITY>INFO</SEVERITY>",
   "      </STATUS>",
   "      <INVSTMTRS>",
   "        <DTASOF>" ++ dtasof ++ "</DTASOF>",
   "        <CURDEF>USD</CURDEF>",
   "        <INVACCTFROM>",
   "          <BROKERID>WellsFargo</BROKERID>",
   "          <ACCTID>" ++ account_id ++ "</ACCTID>",
   "        </INVACCTFROM>",
   "        <INVTRANLIST>",
   "          <DTSTART>" ++ dtstart ++ "</DTSTART>",
   "          <DTEND>" ++ dtend ++ "</DTEND>"]

/-- The fixed lines closing the transaction list and carrying the
zero-balance block (source lines 724-732). -/
def qfx_invbal_lines : List String :=
  ["        </INVTRANLIST>",
   "        <INVBAL>",
   "          <AVAILCASH>0.00</AVAILCASH>",
   "          <MARGINBALANCE>0.00</MARGINBALANCE>",
   "          <SHORTBALANCE>0.00</SHORTBALANCE>",
   "        </INVBAL>",
   "      </INVSTMTRS>",
   "    </INVSTMTTRNRS>",
   "  </INVSTMTMSGSRSV1>"]

/-- The security-list section (source lines 734-744), emitted only when at
least one security entry exists. -/
def qfx_seclist_lines (securities : List SecurityInfo) : List String :=
  if securities.isEmpty then []
  else
    ["  <SECLISTMSGSRSV1>", "    <SECLIST>"] ++
    securities.map (fun s => "      " ++ stripStr s.info_entry) ++
    ["    </SECLIST>", "  </SECLISTMSGSRSV1>"]

/-- The serialized document lines (source lines 675-746): header, the
ordered transaction fragments each right-stripped, the balance block, the
optional security list, and the closing tag. -/
def build_qfx_lines (account_id dtnow dtasof dtstart dtend : String)
    (transactions : List TransactionEntry) (securities : List SecurityInfo) : List String :=
  qfx_header_lines account_id dtnow dtasof dtstart dtend ++
  (all_txns transactions).map rstripStr ++
  qfx_invbal_lines ++
  qfx_seclist_lines securities ++
  ["</OFX>"]

/-- The document date-bounds fold of main (source lines 650-655): min and
max over the rows whose dates parse. -/
def min_max_dates (rows : List Row) : Option PyDate × Option PyDate :=
  rows.foldl (fun mm r =>
    match parse_date r.Date with
    | none => mm
    | some d =>
      ((match mm.1 with
        | none => some d
        | some m => if dateLT d m then some d else some m),
       (match mm.2 with
        | none => some d
        | some m => if dateLT m d then some d else some m)))
    (none, none)

/-- The core of main after argument parsing and file reading (source lines
621-749): process all rows (any failure aborts before anything is
produced), resolve the account id from the first row, compute the date
bounds, and only then build the document lines.  The source writes the
joined lines to the output file strictly after this point, so an error
result here means no output file is written. -/
def run_main (env : Env) (account_mapping : List (String × String)) (rows : List Row)
    (now : PyDate) (dtnow dtasof : String) : Except Err (List String) :=
  match mainLoop env rows with
  | Except.error e => Except.error e
  | Except.ok (txns, secs) =>
    match rows.head? with
    | none => Except.error Err.noAccountInfo
    | some r0 =>
      match account_mapping.find? (fun p => p.1 == stripStr r0.Account) with
      | none => Except.error Err.accountNotMapped
      | some p =>
        let mm := min_max_dates rows
        Except.ok (build_qfx_lines p.2 dtnow dtasof
          (format_ofx_datetime_opt now mm.1) (format_ofx_datetime_opt now mm.2) txns secs)

/-! ### Result projections (used to state closed instances without
spelling out generated fragment text) -/

/-- Transactions of a successful run of the loop (empty on failure). -/
def mainResTxns (env : Env) (rows : List Row) : List TransactionEntry :=
  match mainLoop env rows with
  | Except.ok p => p.1
  | Except.error _ => []

/-- Deduplicated securities of a successful run of the loop. -/
def mainResSecs (env : Env) (rows : List Row) : List SecurityInfo :=
  match mainLoop env rows with
  | Except.ok p => p.2
  | Except.error _ => []

/-- The undeduplicated security sequence of a successful run. -/
def mainResInfos (env : Env) (rows : List Row) : List SecurityInfo :=
  match genInfos env rows 1 with
  | Except.ok l => l
  | Except.error _ => []

/-- Fragment text of a successful transfer generation. -/
def asset_out (env : Env) (row : Row) (fitid date_str : String) : String :=
  match generate_asset_transfer env row fitid date_str with
  | Except.ok p => p.1
  | Except.error _ => ""

/-- Security entry of a successful transfer generation. -/
def asset_sec (env : Env) (row : Row) (fitid date_str : String) : Option SecurityInfo :=
  match generate_asset_transfer env row fitid date_str with
  | Except.ok p => p.2
  | Except.error _ => none

/-! ### Concrete test data for the closed instances -/

/-- An environment whose external lookups answer negatively and whose
missing-CUSIP table is empty; no claim depends on these answers. -/
def env0 : Env := ⟨fun _ => false, fun _ _ => false, []⟩

/-- Fields in order: Date, Account, Activity, Description, CUSIP, Symbol,
Quantity, Price, Amount. -/
def rowFee : Row :=
  ⟨"01/05/2023", "Acct One", "Advisory Fee", "Quarterly fee", "", "", "", "", "-10.00"⟩

/-- A plain buy row with CUSIP and symbol. -/
def rowBuy : Row :=
  ⟨"01/06/2023", "Acct One", "Buy", "ACME CORP", "123456789", "ACME", "10", "10.00", "-100.00"⟩

/-- An interest row. -/
def rowInt : Row :=
  ⟨"01/07/2023", "Acct One", "Interest", "Interest earned", "", "", "", "", "5.00"⟩

/-- A sell row. -/
def rowSell : Row :=
  ⟨"01/08/2023", "Acct One", "Sell", "XYZ sale", "987654321", "XYZ", "-5", "10.00", "50.00"⟩

/-- The four-row ordering example: fee, buy, interest, sell in input
order. -/
def rows4 : List Row := [rowFee, rowBuy, rowInt, rowSell]

/-- First dividend row of the dedup example. -/
def rowDivA : Row :=
  ⟨"01/09/2023", "Acct One", "Dividend", "Div A", "123456789", "AAA", "", "", "1.00"⟩

/-- Second dividend row of the dedup example: same identifier, different
symbol, hence a different rendering that must lose to the first. -/
def rowDivB : Row :=
  ⟨"01/10/2023", "Acct One", "Dividend", "Div B", "123456789", "BBB", "", "", "2.00"⟩

/-- The two-row dedup example. -/
def rows2 : List Row := [rowDivA, rowDivB]

/-- A mislabeled funding row: Activity buy, description ending in initial,
no CUSIP or Symbol, amount equal to the negated quantity. -/
def rowFund : Row :=
  ⟨"01/15/2023", "Acct One", "Buy", "XYZ initial", "", "", "500", "", "-500.00"⟩

/-- A sell row missing both Amount and Price. -/
def rowSellBad : Row :=
  ⟨"01/16/2023", "Acct One", "Sell", "Bad sale", "987654321", "XYZ", "5", "", ""⟩

/-- A dividend row with an empty CUSIP. -/
def rowDivBad : Row :=
  ⟨"01/17/2023", "Acct One", "Dividend", "Bad dividend", "  ", "SYM", "", "", "1.00"⟩

/-- A row with the unrecognized Activity value rebalance. -/
def rowReb : Row :=
  ⟨"01/18/2023", "Acct One", "rebalance", "Rebalance event", "", "", "", "", ""⟩

/-- A cash transfer row (no CUSIP) with a negative amount. -/
def rowAch : Row :=
  ⟨"01/03/2023", "Acct One", "ACH Activity", "Transfer out", "", "", "", "", "-250.00"⟩

/-- The account mapping used by the closed main instances. -/
def am0 : List (String × String) := [("Acct One", "A1")]

/-- The now date used by the closed main instances. -/
def now0 : PyDate := ⟨2023, 2, 1⟩

/-! ### Helper lemmas: digit characters and decimal rendering -/

theorem dchar_mem_digitChars {d : Nat} (h : d < 10) : dchar d ∈ digitChars := by
  interval_cases d <;> decide

theorem digitChars_not_ws : ∀ c ∈ digitChars, c.isWhitespace = false := by decide

theorem digitChars_isDigit : ∀ c ∈ digitChars, c.isDigit = true := by decide

theorem digitChars_ne_dot : ∀ c ∈ digitChars, (c != '.') = true := by decide

theorem digitChars_ne_dollar : ∀ c ∈ digitChars, (c != '$') = true := by decide

theorem digitChars_ne_comma : ∀ c ∈ digitChars, (c != ',') = true := by decide

theorem digitChars_ne_minus : ∀ c ∈ digitChars, (c == '-') = false := by decide

theorem digitChars_ne_lparen : ∀ c ∈ digitChars, c ≠ '(' := by decide

theorem dchar_toNat {d : Nat} (h : d < 10) : (dchar d).toNat = 48 + d := by
  interval_cases d <;> decide

theorem natDigitsGo_small {fuel m : Nat} (hf : 0 < fuel) (hm : m < 10) :
    natDigitsGo fuel m = [dchar m] := by
  cases fuel with
  | zero => omega
  | succ f => simp [natDigitsGo, hm]

theorem natDigitsGo_ne_nil : ∀ fuel n : Nat, n < fuel → natDigitsGo fuel n ≠ [] := by
  intro fuel
  induction fuel with
  | zero => intro n h; omega
  | succ f ih =>
    intro n h
    by_cases h10 : n < 10 <;> simp [natDigitsGo, h10]

theorem natDigitsGo_mem : ∀ fuel n : Nat, n < fuel → ∀ c ∈ natDigitsGo fuel n, c ∈ digitChars := by
  intro fuel
  induction fuel with
  | zero => intro n h; omega
  | succ f ih =>
    intro n h c hc
    by_cases h10 : n < 10
    · rw [natDigitsGo_small (by omega) h10] at hc
      simp at hc
      subst hc
      exact dchar_mem_digitChars h10
    · simp [natDigitsGo, h10] at hc
      have hdiv : n / 10 < n := Nat.div_lt_self (by omega) (by omega)
      rcases hc with hc | hc
      · exact ih (n / 10) (by omega) c hc
      · subst hc
        exact dchar_mem_digitChars (Nat.mod_lt _ (by omega))

theorem digitsVal_append_single (l : List Char) (c : Char) :
    digitsVal (l ++ [c]) = 10 * digitsVal l + (c.toNat - 48) := by
  simp [digitsVal, List.foldl_append]

theorem digitsVal_natDigitsGo : ∀ fuel n : Nat, n < fuel → digitsVal (natDigitsGo fuel n) = n := by
  intro fuel
  induction fuel with
  | zero => intro n h; omega
  | succ f ih =>
    intro n h
    by_cases h10 : n < 10
    · rw [natDigitsGo_small (by omega) h10]
      have : digitsVal [dchar n] = 10 * 0 + ((dchar n).toNat - 48) := rfl
      rw [this, dchar_toNat h10]
      omega
    · have hdiv : n / 10 < n := Nat.div_lt_self (by omega) (by omega)
      simp only [natDigitsGo, h10, if_false]
      rw [digitsVal_append_single, ih (n / 10) (by omega), dchar_toNat (Nat.mod_lt _ (by omega))]
      omega

theorem natDigits_ne_nil (n : Nat) : natDigits n ≠ [] :=
  natDigitsGo_ne_nil _ _ (Nat.lt_succ_self n)

theorem natDigits_mem {n : Nat} : ∀ c ∈ natDigits n, c ∈ digitChars :=
  natDigitsGo_mem _ _ (Nat.lt_succ_self n)

theorem digitsVal_natDigits (n : Nat) : digitsVal (natDigits n) = n :=
  digitsVal_natDigitsGo _ _ (Nat.lt_succ_self n)

theorem digitsVal_cons_zero (l : List Char) : digitsVal ('0' :: l) = digitsVal l := rfl

theorem pad2c_mem {k : Nat} : ∀ c ∈ pad2c k, c ∈ digitChars := by
  intro c hc
  unfold pad2c at hc
  split at hc
  · rcases List.mem_cons.mp hc with h | h
    · subst h; decide
    · exact natDigits_mem c h
  · exact natDigits_mem c hc

theorem digitsVal_pad2c (k : Nat) : digitsVal (pad2c k) = k := by
  unfold pad2c
  split
  · rw [digitsVal_cons_zero, digitsVal_natDigits]
  · exact digitsVal_natDigits k

theorem natDigits_length_one {n : Nat} (h : n < 10) : (natDigits n).length = 1 := by
  rw [natDigits, natDigitsGo_small (by omega) h]
  rfl

theorem pad2c_length {k : Nat} (h : k < 100) : (pad2c k).length = 2 := by
  unfold pad2c
  split
  · rename_i h10
    simp [natDigits_length_one h10]
  · rename_i h10
    have hdiv : k / 10 < 10 := by omega
    rw [natDigits]
    have hk : ¬ k < 10 := h10
    simp only [natDigitsGo, hk, if_false]
    rw [natDigitsGo_small (by omega) hdiv]
    rfl

/-! ### Helper lemmas: whitespace stripping, filtering, decimal parsing -/

theorem dropWhile_eq_self_of_all {p : Char → Bool} :
    ∀ l : List Char, (∀ c ∈ l, p c = false) → l.dropWhile p = l := by
  intro l h
  cases l with
  | nil => rfl
  | cons a t =>
    exact List.dropWhile_cons_of_neg (by simp [h a (List.mem_cons_self a t)])

theorem stripChars_eq_self {l : List Char} (h : ∀ c ∈ l, c.isWhitespace = false) :
    stripChars l = l := by
  unfold stripChars
  rw [dropWhile_eq_self_of_all l h,
    dropWhile_eq_self_of_all _ (by intro c hc; exact h c (List.mem_reverse.mp hc)),
    List.reverse_reverse]

theorem filter_eq_self_of_all {p : Char → Bool} :
    ∀ l : List Char, (∀ c ∈ l, p c = true) → l.filter p = l := by
  intro l h
  induction l with
  | nil => rfl
  | cons a t ih =>
    rw [List.filter_cons_of_pos (h a (List.mem_cons_self a t)),
      ih (fun c hc => h c (List.mem_cons_of_mem a hc))]

theorem takeWhile_append_of_all {p : Char → Bool} :
    ∀ l1 l2 : List Char, (∀ c ∈ l1, p c = true) →
      (l1 ++ l2).takeWhile p = l1 ++ l2.takeWhile p := by
  intro l1
  induction l1 with
  | nil => intro l2 h; rfl
  | cons a t ih =>
    intro l2 h
    rw [List.cons_append, List.takeWhile_cons_of_pos (h a (List.mem_cons_self a t)),
      ih l2 (fun c hc => h c (List.mem_cons_of_mem a hc)), List.cons_append]

theorem dropWhile_append_of_all {p : Char → Bool} :
    ∀ l1 l2 : List Char, (∀ c ∈ l1, p c = true) →
      (l1 ++ l2).dropWhile p = l2.dropWhile p := by
  intro l1
  induction l1 with
  | nil => intro l2 h; rfl
  | cons a t ih =>
    intro l2 h
    rw [List.cons_append, List.dropWhile_cons_of_pos (h a (List.mem_cons_self a t)),
      ih l2 (fun c hc => h c (List.mem_cons_of_mem a hc))]

theorem parseDecimalL_format (a b : Nat) (hb : b < 100) :
    parseDecimalL (natDigits a ++ '.' :: pad2c b) = some (a * 10 ^ 2 + b, 2) := by
  have hdig : ∀ c ∈ natDigits a, (fun c => c != '.') c = true :=
    fun c hc => digitChars_ne_dot c (natDigits_mem c hc)
  unfold parseDecimalL
  rw [takeWhile_append_of_all _ _ hdig, dropWhile_append_of_all _ _ hdig,
    List.takeWhile_cons_of_neg (by decide), List.dropWhile_cons_of_neg (by decide),
    List.append_nil]
  have hcond : '.' = '.' ∧ (natDigits a).all Char.isDigit = true ∧
      (pad2c b).all Char.isDigit = true ∧ (natDigits a ≠ [] ∨ pad2c b ≠ []) := by
    refine ⟨rfl, ?_, ?_, Or.inl (natDigits_ne_nil a)⟩
    · exact List.all_eq_true.mpr (fun c hc => digitChars_isDigit c (natDigits_mem c hc))
    · exact List.all_eq_true.mpr (fun c hc => digitChars_isDigit c (pad2c_mem c hc))
  show (if '.' = '.' ∧ (natDigits a).all Char.isDigit = true ∧
      (pad2c b).all Char.isDigit = true ∧ (natDigits a ≠ [] ∨ pad2c b ≠ []) then
    some (digitsVal (natDigits a) * 10 ^ (pad2c b).length + digitsVal (pad2c b),
      (pad2c b).length) else none) = some (a * 10 ^ 2 + b, 2)
  rw [if_pos hcond, digitsVal_natDigits, digitsVal_pad2c, pad2c_length hb]

theorem natRhe_mul100 (m : Nat) : natRhe (m * 100) 100 = m := by
  unfold natRhe
  rw [Nat.mul_div_cancel _ (by omega), Nat.mul_mod_left]
  norm_num

/-! ### Helper lemmas: normalize_currency is the identity on its own
output -/

theorem formatSigned2_data (neg : Bool) (n : Nat) :
    (formatSigned2 neg n).data =
      (if neg then ['-'] else []) ++ natDigits (n / 100) ++ '.' :: pad2c (n % 100) := rfl

theorem formatSigned2_not_empty (neg : Bool) (n : Nat) :
    ¬ (formatSigned2 neg n).data = [] := by
  rw [formatSigned2_data]
  cases neg <;> simp

theorem fs2_digits_mem {n : Nat} :
    ∀ c ∈ natDigits (n / 100) ++ '.' :: pad2c (n % 100), c ∈ '.' :: digitChars := by
  intro c hc
  rcases List.mem_append.mp hc with h | h
  · exact List.mem_cons_of_mem _ (natDigits_mem c h)
  · rcases List.mem_cons.mp h with h | h
    · simp [h]
    · exact List.mem_cons_of_mem _ (pad2c_mem c h)

theorem dot_digits_not_ws : ∀ c ∈ '.' :: digitChars, c.isWhitespace = false := by decide

theorem dot_digits_ne_dollar : ∀ c ∈ '.' :: digitChars, (c != '$') = true := by decide

theorem dot_digits_ne_comma : ∀ c ∈ '.' :: digitChars, (c != ',') = true := by decide

theorem currency_paren_of_head {c : Char} {t : List Char} (h : c ≠ '(') :
    currency_paren (c :: t) = (false, c :: t) := by
  unfold currency_paren
  rw [if_neg]
  rintro ⟨h1, -⟩
  rw [List.head?_cons] at h1
  exact h (Option.some.inj h1)

theorem currency_minus_clean {b : Bool} {c : Char} {t : List Char}
    (hws : ∀ x ∈ c :: t, x.isWhitespace = false)
    (hdollar : ∀ x ∈ c :: t, (x != '$') = true)
    (hcomma : ∀ x ∈ c :: t, (x != ',') = true)
    (hminus : c ≠ '-') :
    currency_minus (b, c :: t) = (b, c :: t) := by
  unfold currency_minus
  simp only []
  rw [filter_eq_self_of_all _ hdollar, filter_eq_self_of_all _ hcomma,
    stripChars_eq_self hws]
  rw [if_neg]
  rw [List.head?_cons]
  intro h1
  exact hminus (Option.some.inj h1)

theorem currency_minus_neg_clean {b : Bool} {c : Char} {t : List Char}
    (hws : ∀ x ∈ c :: t, x.isWhitespace = false)
    (hdollar : ∀ x ∈ c :: t, (x != '$') = true)
    (hcomma : ∀ x ∈ c :: t, (x != ',') = true)
    (hminus : c ≠ '-') :
    currency_minus (b, '-' :: c :: t) = (true, c :: t) := by
  have hws2 : ∀ x ∈ '-' :: c :: t, x.isWhitespace = false := by
    intro x hx
    rcases List.mem_cons.mp hx with h | h
    · subst h; decide
    · exact hws x h
  have hdollar2 : ∀ x ∈ '-' :: c :: t, (x != '$') = true := by
    intro x hx
    rcases List.mem_cons.mp hx with h | h
    · subst h; decide
    · exact hdollar x h
  have hcomma2 : ∀ x ∈ '-' :: c :: t, (x != ',') = true := by
    intro x hx
    rcases List.mem_cons.mp hx with h | h
    · subst h; decide
    · exact hcomma x h
  unfold currency_minus
  simp only []
  rw [filter_eq_self_of_all _ hdollar2, filter_eq_self_of_all _ hcomma2,
    stripChars_eq_self hws2]
  rw [if_pos (by rw [List.head?_cons])]
  rw [List.dropWhile_cons_of_pos (by decide),
    List.dropWhile_cons_of_neg (by simp [hminus]),
    stripChars_eq_self hws]

theorem currency_core_formatSigned2 (neg : Bool) (n : Nat) :
    currency_core (formatSigned2 neg n) =
      some (neg, natDigits (n / 100) ++ '.' :: pad2c (n % 100)) := by
  obtain ⟨c, t, hct⟩ : ∃ c t, natDigits (n / 100) = c :: t := by
    cases h : natDigits (n / 100) with
    | nil => exact absurd h (natDigits_ne_nil _)
    | cons c t => exact ⟨c, t, rfl⟩
  have hcmem : c ∈ digitChars := by
    have : c ∈ natDigits (n / 100) := by rw [hct]; exact List.mem_cons_self c t
    exact natDigits_mem c this
  have hD : natDigits (n / 100) ++ '.' :: pad2c (n % 100) =
      c :: (t ++ '.' :: pad2c (n % 100)) := by rw [hct]; rfl
  have hDmem : ∀ x ∈ c :: (t ++ '.' :: pad2c (n % 100)), x ∈ '.' :: digitChars := by
    intro x hx
    exact fs2_digits_mem x (hD ▸ hx)
  have hws : ∀ x ∈ c :: (t ++ '.' :: pad2c (n % 100)), x.isWhitespace = false :=
    fun x hx => dot_digits_not_ws x (hDmem x hx)
  have hdollar : ∀ x ∈ c :: (t ++ '.' :: pad2c (n % 100)), (x != '$') = true :=
    fun x hx => dot_digits_ne_dollar x (hDmem x hx)
  have hcomma : ∀ x ∈ c :: (t ++ '.' :: pad2c (n % 100)), (x != ',') = true :=
    fun x hx => dot_digits_ne_comma x (hDmem x hx)
  have hclp : c ≠ '(' := digitChars_ne_lparen c hcmem
  have hcmi : c ≠ '-' := by
    have := digitChars_ne_minus c hcmem
    simp only [beq_eq_false_iff_ne, ne_eq] at this
    exact this
  cases neg with
  | false =>
    have hL : (formatSigned2 false n).data = c :: (t ++ '.' :: pad2c (n % 100)) := by
      rw [formatSigned2_data, hct]
      rfl
    unfold currency_core
    rw [hL, stripChars_eq_self hws]
    rw [if_neg (by simp)]
    rw [currency_paren_of_head hclp, currency_minus_clean hws hdollar hcomma hcmi, hD]
  | true =>
    have hL : (formatSigned2 true n).data = '-' :: c :: (t ++ '.' :: pad2c (n % 100)) := by
      rw [formatSigned2_data, hct]
      rfl
    have hws2 : ∀ x ∈ '-' :: c :: (t ++ '.' :: pad2c (n % 100)),
        x.isWhitespace = false := by
      intro x hx
      rcases List.mem_cons.mp hx with h | h
      · subst h; decide
      · exact hws x h
    unfold currency_core
    rw [hL, stripChars_eq_self hws2]
    rw [if_neg (by simp)]
    rw [currency_paren_of_head (by decide),
      currency_minus_neg_clean hws hdollar hcomma hcmi, hD]

theorem normalize_currency_none_of (v : String) (h : currency_core v = none) (i : Bool) :
    normalize_currency v i = none := by
  unfold normalize_currency
  rw [h]

theorem normalize_currency_unparseable (v : String) (neg : Bool) (core : List Char)
    (h1 : currency_core v = some (neg, core)) (h2 : parseDecimalL core = none) (i : Bool) :
    normalize_currency v i = some "0.00" := by
  unfold normalize_currency
  rw [h1]
  show (match parseDecimalL core with
    | none => some "0.00"
    | some mk =>
      some (formatSigned2 (if i then !neg else neg)
        (natRhe (mk.1 * 100) (10 ^ mk.2)))) = some "0.00"
  rw [h2]

theorem normalize_currency_eq_of_parse (v : String) (neg : Bool) (core : List Char)
    (mk : DecQ) (h1 : currency_core v = some (neg, core))
    (h2 : parseDecimalL core = some mk) (i : Bool) :
    normalize_currency v i =
      some (formatSigned2 (if i then !neg else neg) (natRhe (mk.1 * 100) (10 ^ mk.2))) := by
  unfold normalize_currency
  rw [h1]
  show (match parseDecimalL core with
    | none => some "0.00"
    | some mk =>
      some (formatSigned2 (if i then !neg else neg)
        (natRhe (mk.1 * 100) (10 ^ mk.2)))) = _
  rw [h2]

theorem normalize_currency_fixed (neg : Bool) (n : Nat) :
    normalize_currency (formatSigned2 neg n) false = some (formatSigned2 neg n) := by
  rw [normalize_currency_eq_of_parse _ neg _ _ (currency_core_formatSigned2 neg n)
    (parseDecimalL_format (n / 100) (n % 100) (Nat.mod_lt _ (by omega))) false]
  have h2 : natRhe ((n / 100 * 10 ^ 2 + n % 100) * 100) (10 ^ 2) = n := by
    have h1 : n / 100 * 10 ^ 2 + n % 100 = n := by omega
    rw [h1]
    show natRhe (n * 100) 100 = n
    exact natRhe_mul100 n
  rw [h2]
  simp

theorem normalize_currency_cons_space (v : String) (i : Bool) :
    normalize_currency (String.mk (' ' :: v.data)) i = normalize_currency v i := by
  have h : stripChars (' ' :: v.data) = stripChars v.data := by
    unfold stripChars
    rw [List.dropWhile_cons_of_pos (by decide)]
  unfold normalize_currency currency_core
  rw [show (String.mk (' ' :: v.data)).data = ' ' :: v.data from rfl, h]

/-- Claim C7: normalize_currency trims whitespace and returns null on empty
input; parenthesized or minus-prefixed values are negative with currency
symbols and thousands separators stripped; unparseable non-empty input
returns "0.00" (for either flag value, because the fallback is returned
before the flag is consulted); when the invert flag is set the final sign
is flipped after all other rules are applied; and the three concrete
examples of the specification hold. -/
theorem claim_c7 :
    normalize_currency "(1,234.50)" false = some "-1234.50" ∧
    normalize_currency "$1,234.50" true = some "-1234.50" ∧
    normalize_currency "" false = none ∧
    normalize_currency "" true = none ∧
    (∀ (v : String) (i : Bool), stripChars v.data = [] → normalize_currency v i = none) ∧
    (∀ (v : String) (i : Bool),
      normalize_currency (String.mk (' ' :: v.data)) i = normalize_currency v i) ∧
    (∀ (v : String) (i : Bool) (neg : Bool) (core : List Char),
      currency_core v = some (neg, core) → parseDecimalL core = none →
      normalize_currency v i = some "0.00") ∧
    (∀ (v : String) (neg : Bool) (core : List Char) (mk : DecQ),
      currency_core v = some (neg, core) → parseDecimalL core = some mk →
      normalize_currency v false =
        some (formatSigned2 neg (natRhe (mk.1 * 100) (10 ^ mk.2))) ∧
      normalize_currency v true =
        some (formatSigned2 (!neg) (natRhe (mk.1 * 100) (10 ^ mk.2)))) := by
  refine ⟨by decide, by decide, by decide, by decide, ?_, ?_, ?_, ?_⟩
  · intro v i h
    apply normalize_currency_none_of
    unfold currency_core
    rw [h]
    simp
  · exact normalize_currency_cons_space
  · exact fun v i neg core h1 h2 => normalize_currency_unparseable v neg core h1 h2 i
  · intro v neg core mk h1 h2
    constructor
    · rw [normalize_currency_eq_of_parse v neg core mk h1 h2 false]
      simp
    · rw [normalize_currency_eq_of_parse v neg core mk h1 h2 true]
      simp

/-- Witness for C7: the general clauses applied at concrete inputs
(whitespace-only input gives null, unparseable non-empty input gives
"0.00"). -/
theorem claim_c7_witness :
    normalize_currency "  " false = none ∧ normalize_currency " abc " true = some "0.00" :=
  ⟨claim_c7.2.2.2.2.1 "  " false (by decide),
   claim_c7.2.2.2.2.2.2.1 " abc " true false ['a', 'b', 'c'] (by decide) (by decide)⟩

/-- Claim C8: for every string x on which normalize_currency returns a
non-null value y, normalizing y again returns y: normalize_currency is
idempotent on its own output. -/
theorem claim_c8 : ∀ x y : String, normalize_currency x false = some y →
    normalize_currency y false = some y := by
  intro x y h
  cases hc : currency_core x with
  | none =>
    rw [normalize_currency_none_of x hc false] at h
    exact absurd h (by simp)
  | some pr =>
    obtain ⟨neg, s⟩ := pr
    cases hp : parseDecimalL s with
    | none =>
      rw [normalize_currency_unparseable x neg s hc hp false] at h
      rw [← Option.some.inj h]
      rw [show ("0.00" : String) = formatSigned2 false 0 from by decide]
      exact normalize_currency_fixed false 0
    | some mk =>
      rw [normalize_currency_eq_of_parse x neg s mk hc hp false] at h
      rw [← Option.some.inj h]
      rw [show (if false then !neg else neg) = neg from rfl]
      exact normalize_currency_fixed neg (natRhe (mk.1 * 100) (10 ^ mk.2))

/-- Witness for C8: applied to the parenthesized example, whose
normalization "-1234.50" renormalizes to itself. -/
theorem claim_c8_witness : normalize_currency "-1234.50" false = some "-1234.50" :=
  claim_c8 "(1,234.50)" "-1234.50" (by decide)

/-! ### Helper lemmas: first-occurrence deduplication -/

theorem dfs_mem_not_seen : ∀ (l : List SecurityInfo) (seen : List String)
    (s : SecurityInfo), s ∈ dedupFirstSeen seen l → s.uniqueid ∉ seen := by
  intro l
  induction l with
  | nil => intro seen s h; simp [dedupFirstSeen] at h
  | cons a t ih =>
    intro seen s h
    simp only [dedupFirstSeen] at h
    by_cases ha : a.uniqueid ∈ seen
    · rw [if_pos ha] at h
      exact ih seen s h
    · rw [if_neg ha] at h
      rcases List.mem_cons.mp h with h | h
      · subst h; exact ha
      · intro hs
        exact ih (a.uniqueid :: seen) s h (List.mem_cons_of_mem _ hs)

theorem dfs_ids_nodup : ∀ (l : List SecurityInfo) (seen : List String),
    ((dedupFirstSeen seen l).map (fun s => s.uniqueid)).Nodup := by
  intro l
  induction l with
  | nil => intro seen; simp [dedupFirstSeen]
  | cons a t ih =>
    intro seen
    simp only [dedupFirstSeen]
    by_cases ha : a.uniqueid ∈ seen
    · rw [if_pos ha]
      exact ih seen
    · rw [if_neg ha]
      rw [List.map_cons, List.nodup_cons]
      refine ⟨?_, ih (a.uniqueid :: seen)⟩
      intro hmem
      rcases List.mem_map.mp hmem with ⟨s, hs, he⟩
      have := dfs_mem_not_seen t (a.uniqueid :: seen) s hs
      exact this (he ▸ List.mem_cons_self _ _)

theorem dfs_sublist : ∀ (l : List SecurityInfo) (seen : List String),
    List.Sublist (dedupFirstSeen seen l) l := by
  intro l
  induction l with
  | nil => intro seen; exact List.Sublist.refl _
  | cons a t ih =>
    intro seen
    simp only [dedupFirstSeen]
    by_cases ha : a.uniqueid ∈ seen
    · rw [if_pos ha]
      exact List.Sublist.cons a (ih seen)
    · rw [if_neg ha]
      exact List.Sublist.cons₂ a (ih (a.uniqueid :: seen))

theorem dfs_find : ∀ (l : List SecurityInfo) (seen : List String) (s : SecurityInfo),
    s ∈ dedupFirstSeen seen l →
    l.find? (fun t => t.uniqueid == s.uniqueid) = some s := by
  intro l
  induction l with
  | nil => intro seen s h; simp [dedupFirstSeen] at h
  | cons a t ih =>
    intro seen s h
    simp only [dedupFirstSeen] at h
    by_cases ha : a.uniqueid ∈ seen
    · rw [if_pos ha] at h
      have hs := dfs_mem_not_seen t seen s h
      have hne : a.uniqueid ≠ s.uniqueid := by
        intro he
        exact hs (he ▸ ha)
      rw [List.find?_cons_of_neg _ (by simp [hne])]
      exact ih seen s h
    · rw [if_neg ha] at h
      rcases List.mem_cons.mp h with h | h
      · subst h
        rw [List.find?_cons_of_pos _ (by simp)]
      · have hs := dfs_mem_not_seen t (a.uniqueid :: seen) s h
        have hne : a.uniqueid ≠ s.uniqueid := by
          intro he
          exact hs (he ▸ List.mem_cons_self _ _)
        rw [List.find?_cons_of_neg _ (by simp [hne])]
        exact ih (a.uniqueid :: seen) s h

theorem dfs_complete : ∀ (l : List SecurityInfo) (seen : List String)
    (t0 : SecurityInfo), t0 ∈ l →
    t0.uniqueid ∈ seen ∨ ∃ s ∈ dedupFirstSeen seen l, s.uniqueid = t0.uniqueid := by
  intro l
  induction l with
  | nil => intro seen t0 h; simp at h
  | cons a t ih =>
    intro seen t0 h
    simp only [dedupFirstSeen]
    rcases List.mem_cons.mp h with h | h
    · subst h
      by_cases ha : t0.uniqueid ∈ seen
      · exact Or.inl ha
      · rw [if_neg ha]
        exact Or.inr ⟨t0, List.mem_cons_self _ _, rfl⟩
    · by_cases ha : a.uniqueid ∈ seen
      · rw [if_pos ha]
        exact ih seen t0 h
      · rw [if_neg ha]
        rcases ih (a.uniqueid :: seen) t0 h with hl | ⟨s, hs, he⟩
        · rcases List.mem_cons.mp hl with hl | hl
          · exact Or.inr ⟨a, List.mem_cons_self _ _, hl.symm⟩
          · exact Or.inl hl
        · exact Or.inr ⟨s, List.mem_cons_of_mem _ hs, he⟩

/-! ### Helper lemmas: the main loop versus the generated-entry sequence -/

theorem mainLoopGo_spec (env : Env) : ∀ (rows : List Row) (counter : Nat)
    (seen : List String) (txns : List TransactionEntry) (secs : List SecurityInfo),
    mainLoopGo env rows counter seen = Except.ok (txns, secs) →
    ∃ infos, genInfos env rows counter = Except.ok infos ∧
      secs = dedupFirstSeen seen infos ∧ txns.length = rows.length := by
  intro rows
  induction rows with
  | nil =>
    intro c seen txns secs h
    simp only [mainLoopGo, Except.ok.injEq, Prod.mk.injEq] at h
    obtain ⟨h1, h2⟩ := h
    subst h1
    subst h2
    exact ⟨[], rfl, rfl, rfl⟩
  | cons r rs ih =>
    intro c seen txns secs h
    simp only [mainLoopGo] at h
    cases hg : generate_transaction env r c with
    | error e =>
      rw [hg] at h
      exact absurd h (by simp)
    | ok p =>
      obtain ⟨te, si⟩ := p
      rw [hg] at h
      cases si with
      | none =>
        have h0 : (match mainLoopGo env rs (c + 1) seen with
            | Except.error e => (Except.error e : Except Err (List TransactionEntry × List SecurityInfo))
            | Except.ok (ts, ss) => Except.ok (te :: ts, ss)) = Except.ok (txns, secs) := h
        cases hr : mainLoopGo env rs (c + 1) seen with
        | error e =>
          rw [hr] at h0
          exact absurd h0 (by simp)
        | ok q =>
          obtain ⟨ts, ss⟩ := q
          rw [hr] at h0
          simp only [Except.ok.injEq, Prod.mk.injEq] at h0
          obtain ⟨h1, h2⟩ := h0
          obtain ⟨infos, hi1, hi2, hi3⟩ := ih (c + 1) seen ts ss hr
          refine ⟨infos, ?_, ?_, ?_⟩
          · simp only [genInfos]
            rw [hg, hi1]
          · rw [← h2, hi2]
          · rw [← h1]
            simp [hi3]
      | some s =>
        have h0 : (if s.uniqueid ∈ seen then
            match mainLoopGo env rs (c + 1) seen with
            | Except.error e => (Except.error e : Except Err (List TransactionEntry × List SecurityInfo))
            | Except.ok (ts, ss) => Except.ok (te :: ts, ss)
          else
            match mainLoopGo env rs (c + 1) (s.uniqueid :: seen) with
            | Except.error e => Except.error e
            | Except.ok (ts, ss) => Except.ok (te :: ts, s :: ss)) = Except.ok (txns, secs) := h
        by_cases hmem : s.uniqueid ∈ seen
        · rw [if_pos hmem] at h0
          cases hr : mainLoopGo env rs (c + 1) seen with
          | error e =>
            rw [hr] at h0
            exact absurd h0 (by simp)
          | ok q =>
            obtain ⟨ts, ss⟩ := q
            rw [hr] at h0
            simp only [Except.ok.injEq, Prod.mk.injEq] at h0
            obtain ⟨h1, h2⟩ := h0
            obtain ⟨infos, hi1, hi2, hi3⟩ := ih (c + 1) seen ts ss hr
            refine ⟨s :: infos, ?_, ?_, ?_⟩
            · simp only [genInfos]
              rw [hg, hi1]
            · rw [← h2, hi2]
              simp only [dedupFirstSeen]
              rw [if_pos hmem]
            · rw [← h1]
              simp [hi3]
        · rw [if_neg hmem] at h0
          cases hr : mainLoopGo env rs (c + 1) (s.uniqueid :: seen) with
          | error e =>
            rw [hr] at h0
            exact absurd h0 (by simp)
          | ok q =>
            obtain ⟨ts, ss⟩ := q
            rw [hr] at h0
            simp only [Except.ok.injEq, Prod.mk.injEq] at h0
            obtain ⟨h1, h2⟩ := h0
            obtain ⟨infos, hi1, hi2, hi3⟩ := ih (c + 1) (s.uniqueid :: seen) ts ss hr
            refine ⟨s :: infos, ?_, ?_, ?_⟩
            · simp only [genInfos]
              rw [hg, hi1]
            · rw [← h2, hi2]
              simp only [dedupFirstSeen]
              rw [if_neg hmem]
            · rw [← h1]
              simp [hi3]

theorem mainLoopGo_fails (env : Env) : ∀ (rows : List Row) (counter : Nat)
    (seen : List String),
    (∃ r ∈ rows, ∀ k : Nat, ∃ e0, generate_transaction env r k = Except.error e0) →
    ∃ e, mainLoopGo env rows counter seen = Except.error e := by
  intro rows
  induction rows with
  | nil =>
    intro c seen h
    obtain ⟨r, hr, -⟩ := h
    simp at hr
  | cons a t ih =>
    intro c seen h
    obtain ⟨r, hr, hgen⟩ := h
    rcases List.mem_cons.mp hr with hra | hrt
    · subst hra
      obtain ⟨e, he⟩ := hgen c
      refine ⟨e, ?_⟩
      simp only [mainLoopGo]
      rw [he]
    · cases hg : generate_transaction env a c with
      | error e =>
        refine ⟨e, ?_⟩
        simp only [mainLoopGo]
        rw [hg]
      | ok p =>
        obtain ⟨te, si⟩ := p
        cases si with
        | none =>
          obtain ⟨e, he⟩ := ih (c + 1) seen ⟨r, hrt, hgen⟩
          refine ⟨e, ?_⟩
          simp only [mainLoopGo]
          rw [hg, he]
        | some s =>
          by_cases hmem : s.uniqueid ∈ seen
          · obtain ⟨e, he⟩ := ih (c + 1) seen ⟨r, hrt, hgen⟩
            refine ⟨e, ?_⟩
            simp only [mainLoopGo]
            rw [hg]
            show (if s.uniqueid ∈ seen then
                match mainLoopGo env t (c + 1) seen with
                | Except.error e => (Except.error e :
                    Except Err (List TransactionEntry × List SecurityInfo))
                | Except.ok (ts, ss) => Except.ok (te :: ts, ss)
              else
                match mainLoopGo env t (c + 1) (s.uniqueid :: seen) with
                | Except.error e => Except.error e
                | Except.ok (ts, ss) => Except.ok (te :: ts, s :: ss)) = Except.error e
            rw [if_pos hmem, he]
          · obtain ⟨e, he⟩ := ih (c + 1) (s.uniqueid :: seen) ⟨r, hrt, hgen⟩
            refine ⟨e, ?_⟩
            simp only [mainLoopGo]
            rw [hg]
            show (if s.uniqueid ∈ seen then
                match mainLoopGo env t (c + 1) seen with
                | Except.error e => (Except.error e :
                    Except Err (List TransactionEntry × List SecurityInfo))
                | Except.ok (ts, ss) => Except.ok (te :: ts, ss)
              else
                match mainLoopGo env t (c + 1) (s.uniqueid :: seen) with
                | Except.error e => Except.error e
                | Except.ok (ts, ss) => Except.ok (te :: ts, s :: ss)) = Except.error e
            rw [if_neg hmem, he]

theorem run_main_error_of (env : Env) (am : List (String × String)) (rows : List Row)
    (now : PyDate) (dtnow dtasof : String)
    (h : ∃ r ∈ rows, ∀ k : Nat, ∃ e0, generate_transaction env r k = Except.error e0) :
    exceptOk (run_main env am rows now dtnow dtasof) = false := by
  obtain ⟨e, he⟩ := mainLoopGo_fails env rows 1 [] h
  unfold run_main
  rw [show mainLoop env rows = Except.error e from he]
  rfl

set_option maxRecDepth 40000

/-- Claim C1: a row whose Activity is buy, whose Description ends in
"initial" (both case-insensitively, after trimming), whose CUSIP and
Symbol are empty, and whose normalized Amount equals the negation of the
raw Quantity, satisfies the funding-activity predicate and is dispatched
by generate_transaction to the asset-transfer generator (not the buy
generator); the override is tested before any Activity-keyword dispatch,
which is visible in the conclusion holding although the Activity keyword
is buy. -/
theorem claim_c1 : ∀ (env : Env) (row : Row) (counter : Nat) (a : String) (x y : DecZ),
    lowerStr (stripStr row.Activity) = "buy" →
    List.isSuffixOf "initial".data (lowerStr (stripStr row.Description)).data = true →
    stripStr row.CUSIP = "" →
    stripStr row.Symbol = "" →
    normalize_currency row.Amount false = some a →
    pyFloat a = some x →
    pyFloat row.Quantity = some y →
    val_eq_neg x y = true →
    is_funding_activity row = Except.ok true ∧
    generate_transaction env row counter =
      Except.map (make_txn_entry false)
        (generate_asset_transfer env row (fitid_of row counter) (date_str_of row)) := by
  intro env row counter a x y hA hD hC hS hAm hx hy hxy
  have hfund : is_funding_activity row = Except.ok true := by
    unfold is_funding_activity
    rw [if_pos (by simp [hA, hD, hC, hS])]
    rw [hAm]
    show (match pyFloat a, pyFloat row.Quantity with
      | some x, some y => Except.ok (val_eq_neg x y)
      | _, _ => Except.error Err.valueErr) = Except.ok true
    rw [hx, hy]
    show Except.ok (val_eq_neg x y) = Except.ok true
    rw [hxy]
  refine ⟨hfund, ?_⟩
  simp only [generate_transaction]
  rw [hfund]
  rfl

/-- Witness for C1: the concrete mislabeled funding row (Activity Buy,
Description "XYZ initial", empty CUSIP and Symbol, Amount -500.00,
Quantity 500) is classified as a transfer. -/
theorem claim_c1_witness :
    is_funding_activity rowFund = Except.ok true ∧
    generate_transaction env0 rowFund 1 =
      Except.map (make_txn_entry false)
        (generate_asset_transfer env0 rowFund (fitid_of rowFund 1) (date_str_of rowFund)) :=
  claim_c1 env0 rowFund 1 "-500.00" (-50000, 2) (500, 0) (by decide) (by decide)
    (by decide) (by decide) (by decide) (by decide) (by decide) (by decide)

/-- Claim C4: the buy/sell generator fails with the incomplete-transaction
error whenever neither a normalized Amount nor a supplied Price exists
(with no amount default, as the buy and sell dispatch paths pass). -/
theorem claim_c4 : ∀ (env : Env) (row : Row) (sell : Bool) (fitid date_str : String),
    normalize_currency row.Amount false = none →
    normalize_currency row.Price false = none →
    generate_buysell_transaction env row sell fitid date_str none =
      Except.error Err.incompleteTransaction := by
  intro env row sell fitid date_str hA hP
  unfold generate_buysell_transaction
  rw [hA, hP]

/-- Witness for C4: a sell row with empty Amount and Price raises the
error, both at the generator and through the dispatch. -/
theorem claim_c4_witness :
    generate_buysell_transaction env0 rowSellBad true "TXN202301160001" "20230116" none =
      Except.error Err.incompleteTransaction ∧
    generate_transaction env0 rowSellBad 1 = Except.error Err.incompleteTransaction :=
  ⟨claim_c4 env0 rowSellBad true "TXN202301160001" "20230116" (by decide) (by decide),
   by rfl⟩

/-- Claim C5: the income generator fails with the missing-identifier error
whenever the trimmed CUSIP is empty, for every environment (hence without
consulting the description-regex fallback table) and every income type. -/
theorem claim_c5 : ∀ (env : Env) (row : Row) (fitid date_str incometype : String),
    stripStr row.CUSIP = "" →
    generate_income_transaction env row fitid date_str incometype =
      Except.error Err.missingIdentifier := by
  intro env row fitid date_str it h
  simp only [generate_income_transaction]
  rw [if_pos h]

/-- Witness for C5: a dividend row with a whitespace-only CUSIP raises the
error, both at the generator and through the dispatch. -/
theorem claim_c5_witness :
    generate_income_transaction env0 rowDivBad "TXN202301170001" "20230117" "DIV" =
      Except.error Err.missingIdentifier ∧
    generate_transaction env0 rowDivBad 1 = Except.error Err.missingIdentifier :=
  ⟨claim_c5 env0 rowDivBad "TXN202301170001" "20230117" "DIV" (by decide),
   by rfl⟩

/-- Claim C6: a row that is not a funding activity and whose trimmed,
lower-cased Activity matches none of the recognized categories makes
generate_transaction fail with the unknown-activity error; and any run
whose input contains such a row produces no document (run_main returns an
error, and the source writes the output file only from a successful
result). -/
theorem claim_c6 :
    (∀ (env : Env) (row : Row) (counter : Nat),
      is_funding_activity row = Except.ok false →
      lowerStr (stripStr row.Activity) ∉ recognized_activities →
      generate_transaction env row counter = Except.error Err.unknownActivity) ∧
    (∀ (env : Env) (am : List (String × String)) (rows : List Row) (now : PyDate)
      (dtnow dtasof : String),
      (∃ r ∈ rows, is_funding_activity r = Except.ok false ∧
        lowerStr (stripStr r.Activity) ∉ recognized_activities) →
      exceptOk (run_main env am rows now dtnow dtasof) = false) := by
  have part1 : ∀ (env : Env) (row : Row) (counter : Nat),
      is_funding_activity row = Except.ok false →
      lowerStr (stripStr row.Activity) ∉ recognized_activities →
      generate_transaction env row counter = Except.error Err.unknownActivity := by
    intro env row counter hf hmem
    simp only [recognized_activities, List.mem_cons, List.not_mem_nil, or_false,
      not_or] at hmem
    obtain ⟨h1, h2, h3, h4, h5, h6, h7, h8, h9, h10, h11, h12, h13, h14⟩ := hmem
    simp [generate_transaction, hf, h1, h2, h3, h4, h5, h6, h7, h8, h9, h10, h11,
      h12, h13, h14]
  refine ⟨part1, ?_⟩
  intro env am rows now dtnow dtasof h
  obtain ⟨r, hr, hf, hmem⟩ := h
  exact run_main_error_of env am rows now dtnow dtasof
    ⟨r, hr, fun k => ⟨Err.unknownActivity, part1 env r k hf hmem⟩⟩

/-- Witness for C6: Activity "rebalance" raises the unknown-activity error
and a run containing it yields no document. -/
theorem claim_c6_witness :
    generate_transaction env0 rowReb 1 = Except.error Err.unknownActivity ∧
    exceptOk (run_main env0 am0 [rowReb] now0 "20230201120000" "20230201") = false :=
  ⟨claim_c6.1 env0 rowReb 1 (by rfl) (by decide),
   claim_c6.2 env0 am0 [rowReb] now0 "20230201120000" "20230201"
     ⟨rowReb, by simp, by rfl, by decide⟩⟩

/-- Claim C9: in the transfer generator, a cash transfer (empty CUSIP)
emits the direction tag OUT exactly when the normalized amount carries a
leading minus sign and IN otherwise, while a security transfer (non-empty
CUSIP) always emits the literal direction tag IN, whatever the sign of the
quantity (the quantity appears in the fragment only as the UNITS value). -/
theorem claim_c9 : ∀ (env : Env) (row : Row) (fitid date_str out : String)
    (sinfo : Option SecurityInfo),
    generate_asset_transfer env row fitid date_str = Except.ok (out, sinfo) →
    ((stripStr row.CUSIP = "" →
      (normalize_currency row.Amount false).isSome = true ∧
      out = cash_transfer_pre (stripStr row.Activity) (stripStr row.Description) fitid
          (full_date_of row date_str) ((normalize_currency row.Amount false).getD "") ++
        "            <TFERACTION>" ++
        cash_transfer_dir ((normalize_currency row.Amount false).getD "") ++
        "</TFERACTION>\n" ++ cash_transfer_post ∧
      sinfo = some cash_security_info ∧
      (cash_transfer_dir ((normalize_currency row.Amount false).getD "") = "OUT" ↔
        ((normalize_currency row.Amount false).getD "").data.head? = some '-') ∧
      (cash_transfer_dir ((normalize_currency row.Amount false).getD "") = "IN" ↔
        ¬ ((normalize_currency row.Amount false).getD "").data.head? = some '-')) ∧
     (¬ stripStr row.CUSIP = "" →
      out = sec_transfer_pre (stripStr row.Activity) (stripStr row.Description)
          (stripStr row.CUSIP) (normalize_quantity row.Quantity) fitid
          (full_date_of row date_str) ++
        "    <TFERACTION>IN</TFERACTION>\n" ++ sec_transfer_post)) := by
  intro env row fitid date_str out sinfo h
  constructor
  · intro hc
    simp only [generate_asset_transfer] at h
    rw [if_pos hc] at h
    cases hAm : normalize_currency row.Amount false with
    | none =>
      rw [hAm] at h
      exact absurd h (by simp)
    | some a =>
      rw [hAm] at h
      simp only [Except.ok.injEq, Prod.mk.injEq] at h
      obtain ⟨h1, h2⟩ := h
      subst h1
      subst h2
      refine ⟨by simp, by simp, rfl, ?_, ?_⟩
      · by_cases hd : a.data.head? = some '-'
        · simp [cash_transfer_dir, hd]
        · simp [cash_transfer_dir, hd]
      · by_cases hd : a.data.head? = some '-'
        · simp [cash_transfer_dir, hd]
        · simp [cash_transfer_dir, hd]
  · intro hc
    simp only [generate_asset_transfer] at h
    rw [if_neg hc] at h
    cases hs : generate_buysell_security_info env row with
    | error e =>
      rw [hs] at h
      exact absurd h (by simp)
    | ok si2 =>
      rw [hs] at h
      simp only [Except.ok.injEq, Prod.mk.injEq] at h
      obtain ⟨h1, h2⟩ := h
      subst h1
      rfl

/-- Witness for C9: a concrete cash transfer with negative amount gets the
OUT tag in the stated position of its fragment. -/
theorem claim_c9_witness :
    (normalize_currency rowAch.Amount false).isSome = true ∧
    asset_out env0 rowAch "FIT9" "20230101" =
      cash_transfer_pre (stripStr rowAch.Activity) (stripStr rowAch.Description) "FIT9"
        (full_date_of rowAch "20230101") ((normalize_currency rowAch.Amount false).getD "") ++
      "            <TFERACTION>" ++
      cash_transfer_dir ((normalize_currency rowAch.Amount false).getD "") ++
      "</TFERACTION>\n" ++ cash_transfer_post ∧
    asset_sec env0 rowAch "FIT9" "20230101" = some cash_security_info ∧
    (cash_transfer_dir ((normalize_currency rowAch.Amount false).getD "") = "OUT" ↔
      ((normalize_currency rowAch.Amount false).getD "").data.head? = some '-') ∧
    (cash_transfer_dir ((normalize_currency rowAch.Amount false).getD "") = "IN" ↔
      ¬ ((normalize_currency rowAch.Amount false).getD "").data.head? = some '-') :=
  (claim_c9 env0 rowAch "FIT9" "20230101" (asset_out env0 rowAch "FIT9" "20230101")
    (asset_sec env0 rowAch "FIT9" "20230101") (by rfl)).1 (by decide)

/-- Claim C10: for a row reaching the interest generator whose Amount is
non-empty and parseable, the TRNAMT value equals the inverted
normalization of the Amount (the generator passes the first normalization
result, a non-empty string, as the truthiness-interpreted inversion flag
of the second call), so a positive Amount is emitted with a leading minus
sign; and the generated fragment carries exactly this TRNAMT value. -/
theorem claim_c10 : ∀ (row : Row) (fitid date_str : String) (neg : Bool)
    (core : List Char) (mk : DecQ),
    currency_core row.Amount = some (neg, core) →
    parseDecimalL core = some mk →
    intrest_trnamt row = normalize_currency row.Amount true ∧
    generate_intrest_transaction row fitid date_str =
      (intrest_pre date_str ++ optStr (intrest_trnamt row) ++ intrest_post row fitid,
        none) ∧
    (neg = false →
      intrest_trnamt row =
        some (formatSigned2 true (natRhe (mk.1 * 100) (10 ^ mk.2))) ∧
      normalize_currency row.Amount false =
        some (formatSigned2 false (natRhe (mk.1 * 100) (10 ^ mk.2)))) := by
  intro row fitid date_str neg core mk h1 h2
  have hfalse := normalize_currency_eq_of_parse row.Amount neg core mk h1 h2 false
  have htrue := normalize_currency_eq_of_parse row.Amount neg core mk h1 h2 true
  have hne : py_truthy (normalize_currency row.Amount false) = true := by
    rw [hfalse]
    simp [py_truthy, formatSigned2_not_empty]
  have htr : intrest_trnamt row = normalize_currency row.Amount true := by
    simp only [intrest_trnamt]
    rw [hne]
  refine ⟨htr, rfl, ?_⟩
  intro hnegf
  subst hnegf
  constructor
  · rw [htr, htrue]
    simp
  · rw [hfalse]
    simp

/-- Witness for C10: the concrete interest row with Amount 5.00 has TRNAMT
-5.00. -/
theorem claim_c10_witness :
    intrest_trnamt rowInt = normalize_currency rowInt.Amount true ∧
    intrest_trnamt rowInt = some "-5.00" :=
  ⟨(claim_c10 rowInt "F" "D" false ['5', '.', '0', '0'] (500, 2)
    (by decide) (by decide)).1, by decide⟩

/-- Claim C2: the serialized document lists the transaction fragments as
all non-cash-type fragments (in input order, a sublist of the input) then
all cash-type fragments (in input order); the loop produces one
transaction per input row; and on the concrete input [Fee, Buy, Interest,
Sell] the resulting order is [Buy, Sell, Fee, Interest]. -/
theorem claim_c2 :
    (∀ txns : List TransactionEntry,
      all_txns txns =
        ((txns.filter (fun t => !t.is_invbanktran)) ++
          (txns.filter (fun t => t.is_invbanktran))).map (fun t => t.txn_str) ∧
      List.Sublist (txns.filter (fun t => !t.is_invbanktran)) txns ∧
      List.Sublist (txns.filter (fun t => t.is_invbanktran)) txns) ∧
    (∀ (account_id dtnow dtasof dtstart dtend : String)
      (txns : List TransactionEntry) (secs : List SecurityInfo),
      build_qfx_lines account_id dtnow dtasof dtstart dtend txns secs =
        qfx_header_lines account_id dtnow dtasof dtstart dtend ++
        (all_txns txns).map rstripStr ++ qfx_invbal_lines ++ qfx_seclist_lines secs ++
        ["</OFX>"]) ∧
    (∀ (env : Env) (rows : List Row) (txns : List TransactionEntry)
      (secs : List SecurityInfo), mainLoop env rows = Except.ok (txns, secs) →
      txns.length = rows.length) ∧
    exceptOk (mainLoop env0 rows4) = true ∧
    (mainResTxns env0 rows4).map (fun t => t.is_invbanktran) =
      [true, false, true, false] ∧
    all_txns (mainResTxns env0 rows4) =
      [((mainResTxns env0 rows4).getD 1 default).txn_str,
       ((mainResTxns env0 rows4).getD 3 default).txn_str,
       ((mainResTxns env0 rows4).getD 0 default).txn_str,
       ((mainResTxns env0 rows4).getD 2 default).txn_str] := by
  refine ⟨?_, ?_, ?_, by decide, by decide, by decide⟩
  · intro txns
    refine ⟨?_, List.filter_sublist txns, List.filter_sublist txns⟩
    unfold all_txns
    rw [List.map_append]
  · intro account_id dtnow dtasof dtstart dtend txns secs
    rfl
  · intro env rows txns secs h
    obtain ⟨infos, -, -, hlen⟩ := mainLoopGo_spec env rows 1 [] txns secs h
    exact hlen

/-- Witness for C2: the per-row correspondence applied to the concrete
four-row input. -/
theorem claim_c2_witness : (mainResTxns env0 rows4).length = rows4.length :=
  claim_c2.2.2.1 env0 rows4 (mainResTxns env0 rows4) (mainResSecs env0 rows4) (by rfl)

/-- Claim C3: for every successful run, the security collection equals the
first-occurrence deduplication of the generated entry sequence: its
identifiers are pairwise distinct, it is a sublist of the generated
sequence (order of first appearance), each kept entry is the first
generated entry bearing its identifier, and every generated identifier is
represented. -/
theorem claim_c3 : ∀ (env : Env) (rows : List Row) (txns : List TransactionEntry)
    (secs infos : List SecurityInfo),
    mainLoop env rows = Except.ok (txns, secs) →
    genInfos env rows 1 = Except.ok infos →
    secs = dedupFirstSeen [] infos ∧
    ((secs.map (fun s => s.uniqueid)).Nodup) ∧
    List.Sublist secs infos ∧
    (∀ s ∈ secs, infos.find? (fun t => t.uniqueid == s.uniqueid) = some s) ∧
    (∀ t ∈ infos, ∃ s ∈ secs, s.uniqueid = t.uniqueid) := by
  intro env rows txns secs infos h hg
  obtain ⟨infos2, hgi, hdfs, -⟩ := mainLoopGo_spec env rows 1 [] txns secs h
  have hinf : infos2 = infos := by
    rw [hgi] at hg
    exact Except.ok.inj hg
  subst hinf
  subst hdfs
  refine ⟨rfl, dfs_ids_nodup _ _, dfs_sublist _ _, fun s hs => dfs_find _ _ s hs, ?_⟩
  intro t ht
  rcases dfs_complete _ [] t ht with hl | hx
  · simp at hl
  · exact hx

/-- Witness for C3: two dividend rows with the same CUSIP yield exactly one
security entry, the first rendering, out of two generated entries. -/
theorem claim_c3_witness :
    mainResSecs env0 rows2 = dedupFirstSeen [] (mainResInfos env0 rows2) ∧
    ((mainResSecs env0 rows2).map (fun s => s.uniqueid)).Nodup ∧
    List.Sublist (mainResSecs env0 rows2) (mainResInfos env0 rows2) ∧
    (mainResSecs env0 rows2).length = 1 ∧
    (mainResInfos env0 rows2).length = 2 ∧
    (mainResSecs env0 rows2).head? = (mainResInfos env0 rows2).head? := by
  have h := claim_c3 env0 rows2 (mainResTxns env0 rows2) (mainResSecs env0 rows2)
    (mainResInfos env0 rows2) (by rfl) (by rfl)
  exact ⟨h.1, h.2.1, h.2.2.1, by decide, by decide, by decide⟩
